import Mathlib

/-!
Shallow embedding of the ovs-catnat core services (pricing engine, file
processor, lifecycle manager, policy service, import queue) and proofs of
the specification claims about them.

Conventions of the embedding:
* JavaScript `Date` values are modelled as milliseconds since the Unix
  epoch (`Int`), the value returned by `Date.getTime()`.  Calendar
  arithmetic (`setMonth`) is modelled with the standard civil-calendar
  conversion, assuming the UTC timezone.
* JavaScript `number` is modelled as `ℚ` (exact real arithmetic; the
  IEEE-754 rounding of individual operations is outside the embedding,
  as is the non-finite literal `Infinity`).
* JavaScript `Map` objects are modelled as association lists in insertion
  order, with `Map.set` replacing the value in place when the key exists.
* Side effects are modelled by explicit state passing: functions receive
  the ambient clock (`now`) as a parameter and return the updated state.
-/

namespace OvsCatNat

/-- Milliseconds since the Unix epoch, the value of a JS `Date`. -/
abbrev Date := Int

/-! ### Civil-calendar helpers (for the JS `setMonth` semantics) -/

/-- Days since 1970-01-01 of the civil date `y-m-d` (month `1..12`).
The formula is linear in `d`, so an out-of-range day overflows into the
following month, exactly as the JS `MakeDay` operation does. -/
def daysFromCivil (y m d : Int) : Int :=
  let y' := if m ≤ 2 then y - 1 else y
  let era := Int.fdiv y' 400
  let yoe := y' - era * 400
  let mShift := if m > 2 then m - 3 else m + 9
  let doy := Int.fdiv (153 * mShift + 2) 5 + d - 1
  let doe := yoe * 365 + Int.fdiv yoe 4 - Int.fdiv yoe 100 + doy
  era * 146097 + doe - 719468

/-- Civil date `(y, m, d)` (month `1..12`) of a count of days since
1970-01-01. -/
def civilFromDays (z : Int) : Int × Int × Int :=
  let z' := z + 719468
  let era := Int.fdiv z' 146097
  let doe := z' - era * 146097
  let yoe := Int.fdiv (doe - Int.fdiv doe 1460 + Int.fdiv doe 36524 - Int.fdiv doe 146096) 365
  let y := yoe + era * 400
  let doy := doe - (365 * yoe + Int.fdiv yoe 4 - Int.fdiv yoe 100)
  let mp := Int.fdiv (5 * doy + 2) 153
  let d := doy - Int.fdiv (153 * mp + 2) 5 + 1
  let m := if mp < 10 then mp + 3 else mp - 9
  (if m ≤ 2 then y + 1 else y, m, d)

/-- The JS idiom `t2 = new Date(t); t2.setMonth(t2.getMonth() + k)`:
adds `k` calendar months keeping the day-of-month (overflowing into the
next month when the target month is shorter) and the time of day. -/
def addMonthsJS (t : Date) (k : Int) : Date :=
  let days := Int.fdiv t 86400000
  let msd := Int.emod t 86400000
  let (y, m, d) := civilFromDays days
  let mo0 := m - 1 + k
  let y' := y + Int.fdiv mo0 12
  let m' := Int.emod mo0 12 + 1
  daysFromCivil y' m' d * 86400000 + msd

/-- `Math.round(x * 100) / 100`: rounding to cents, halves toward `+∞`
(JS `Math.round x = ⌊x + 0.5⌋`). -/
def round2 (x : ℚ) : ℚ := (⌊x * 100 + 1/2⌋ : ℚ) / 100

/-! ### Domain types (src/types/index.ts) -/

inductive StoreStatus
  | pending
  | active
  | suspended
  | inactive
deriving DecidableEq, Repr

inductive CoverageType
  | catnat
  | property
  | combined
deriving DecidableEq, Repr

structure Store where
  storeCode : String
  businessName : String
  address : String
  squareMeters : ℚ
  status : StoreStatus
  activationDate : Option Date
  closureDate : Option Date
  createdAt : Date
  updatedAt : Date
deriving DecidableEq, Repr

inductive PolicyStatus
  | active
  | expired
  | cancelled
  | pending
deriving DecidableEq, Repr

structure Policy where
  policyId : String
  storeCode : String
  coverageType : CoverageType
  insuredSum : ℚ
  premium : ℚ
  effectiveFrom : Date
  effectiveTo : Date
  status : PolicyStatus
  createdAt : Date
  updatedAt : Date
deriving DecidableEq, Repr

structure PricingConfig where
  coverageType : CoverageType
  ratePerSquareMeter : ℚ
  minimumPremium : ℚ
  maximumInsuredSum : ℚ
  effectiveFrom : Date
  effectiveTo : Option Date
deriving DecidableEq, Repr

inductive UserRole
  | store_manager
  | admin
  | broker
deriving DecidableEq, Repr

/-! ### Generic JS-collection helpers -/

/-- `Map.set` / property assignment on a plain object: replace the value
in place if the key is present (keeping its position), else append. -/
def jsMapSet {α : Type} (m : List (String × α)) (k : String) (v : α) :
    List (String × α) :=
  match m with
  | [] => [(k, v)]
  | (k', v') :: rest =>
      if k' = k then (k, v) :: rest else (k', v') :: jsMapSet rest k v

/-- The whitespace class used by JS `trim` / `parseFloat` (restricted to
the ASCII whitespace characters plus NBSP, the ones that occur in CSV
text). -/
def jsWhitespace (c : Char) : Bool :=
  c = ' ' || c = '\t' || c = '\n' || c = '\r' ||
  c = (Char.ofNat 11) || c = (Char.ofNat 12) || c = (Char.ofNat 160)

/-- JS `String.prototype.trim`. -/
def jsTrim (s : String) : String :=
  ⟨((s.toList.dropWhile jsWhitespace).reverse.dropWhile jsWhitespace).reverse⟩

/-- Split a character list at every separator character; like JS
`String.prototype.split` with a single-character class, this yields one
(possibly empty) chunk more than the number of separators. -/
def splitChars (sep : Char → Bool) : List Char → List (List Char)
  | [] => [[]]
  | c :: rest =>
      match splitChars sep rest with
      | [] => [[]]
      | g :: gs => if sep c then [] :: g :: gs else (c :: g) :: gs

/-- JS `content.split("\n")`. -/
def splitNewlines (s : String) : List String :=
  (splitChars (fun c => c = '\n') s.toList).map (fun l => ⟨l⟩)

/-- JS `line.split(/[,;]/)`: every comma and every semicolon splits. -/
def splitDelims (s : String) : List String :=
  (splitChars (fun c => c = ',' || c = ';') s.toList).map (fun l => ⟨l⟩)

/-- JS `s.replace(/"/g, "")`. -/
def stripQuotes (s : String) : String :=
  ⟨s.toList.filter (fun c => c ≠ '"')⟩

/-- JS `s.toLowerCase()` (ASCII). -/
def lowerStr (s : String) : String := ⟨s.toList.map Char.toLower⟩

/-- Does `needle` occur as a contiguous sublist of `hay`? -/
def isSubListOf (needle : List Char) : List Char → Bool
  | [] => needle.isEmpty
  | c :: rest => needle.isPrefixOf (c :: rest) || isSubListOf needle rest

/-- JS `h.includes(k)`: substring containment. -/
def containsSub (hay needle : String) : Bool :=
  isSubListOf needle.toList hay.toList

/-- JS `s.replace(",", ".")`: replaces the first occurrence only. -/
def replaceFirstChar (a b : Char) : List Char → List Char
  | [] => []
  | c :: rest => if c = a then b :: rest else c :: replaceFirstChar a b rest

/-- Numeric value of a digit string. -/
def digitsVal (ds : List Char) : ℕ :=
  ds.foldl (fun acc c => acc * 10 + (c.toNat - '0'.toNat)) 0

/-- Consume an optional leading `+`/`-`, yielding the sign factor and
the remaining characters. -/
def parseSign (l : List Char) : Int × List Char :=
  if l.head? = some '+' then (1, l.tail)
  else if l.head? = some '-' then (-1, l.tail)
  else (1, l)

/-- JS `parseFloat`: skip leading whitespace, optional sign, decimal
mantissa (digits, optional point, digits; at least one digit), optional
exponent.  Returns `none` where JS returns `NaN`.  (The non-finite
literal `Infinity` is outside the embedding.) -/
def jsParseFloat (s : String) : Option ℚ :=
  let signed := parseSign (s.toList.dropWhile jsWhitespace)
  let l1 := signed.2
  let intPart := l1.takeWhile Char.isDigit
  let l2 := l1.dropWhile Char.isDigit
  let hasPoint := l2.head? = some '.'
  let fracPart := if hasPoint then l2.tail.takeWhile Char.isDigit else []
  let l3 := if hasPoint then l2.tail.dropWhile Char.isDigit else l2
  if intPart.isEmpty && fracPart.isEmpty then none
  else
    let mant : ℚ :=
      (digitsVal intPart : ℚ) + (digitsVal fracPart : ℚ) / 10 ^ fracPart.length
    let exp : Int :=
      if l3.head? = some 'e' ∨ l3.head? = some 'E' then
        let esigned := parseSign l3.tail
        let eds := esigned.2.takeWhile Char.isDigit
        if eds.isEmpty then 0 else esigned.1 * (digitsVal eds : Int)
      else 0
    some ((signed.1 : ℚ) * mant * (10 : ℚ) ^ exp)

/-! ### Pricing Engine (src/lib/core/pricing-engine.ts) -/

structure PricingBreakdown where
  squareMeters : ℚ
  rateApplied : ℚ
  basePremium : ℚ
  adjustments : ℚ
deriving DecidableEq, Repr

structure PricingResult where
  premium : ℚ
  insuredSum : ℚ
  breakdown : PricingBreakdown
deriving DecidableEq, Repr

structure PricingError where
  storeCode : String
  coverageType : CoverageType
  error : String
deriving DecidableEq, Repr

structure BulkPricingResult where
  results : List (String × PricingResult)
  errors : List PricingError
deriving DecidableEq, Repr

/-- `DEFAULT_PRICING_CONFIGS`: the table the singleton engine is built
with (`new Date("2024-01-01")` is epoch-ms `1704067200000`). -/
def DEFAULT_PRICING_CONFIGS : List PricingConfig :=
  [ { coverageType := .catnat, ratePerSquareMeter := 5/2,
      minimumPremium := 500, maximumInsuredSum := 10000000,
      effectiveFrom := 1704067200000, effectiveTo := none },
    { coverageType := .property, ratePerSquareMeter := 4,
      minimumPremium := 750, maximumInsuredSum := 15000000,
      effectiveFrom := 1704067200000, effectiveTo := none },
    { coverageType := .combined, ratePerSquareMeter := 11/2,
      minimumPremium := 1000, maximumInsuredSum := 20000000,
      effectiveFrom := 1704067200000, effectiveTo := none } ]

/-- `PricingEngine.getActiveConfig`: first config in table order whose
coverage type matches and whose window contains the date (`null`
`effectiveTo` is open-ended). -/
def getActiveConfig (configs : List PricingConfig) (coverageType : CoverageType)
    (effectiveDate : Date) : Option PricingConfig :=
  configs.find? fun c =>
    decide (c.coverageType = coverageType) &&
    decide (c.effectiveFrom ≤ effectiveDate) &&
    (match c.effectiveTo with
     | none => true
     | some e => decide (effectiveDate ≤ e))

/-- ISO date part of an epoch-ms value (JS
`toISOString().split("T")[0]`), used in the no-config error message. -/
def isoDatePart (t : Date) : String :=
  let (y, m, d) := civilFromDays (Int.fdiv t 86400000)
  let pad2 (n : Int) : String := if n < 10 then "0" ++ toString n else toString n
  toString y ++ "-" ++ pad2 m ++ "-" ++ pad2 d

def coverageTypeName : CoverageType → String
  | .catnat => "catnat"
  | .property => "property"
  | .combined => "combined"

/-- The message of the error thrown when no pricing config is active. -/
def noActiveConfigMsg (coverageType : CoverageType) (effectiveDate : Date) : String :=
  "Nessuna configurazione di pricing attiva per \"" ++ coverageTypeName coverageType ++
  "\" alla data " ++ isoDatePart effectiveDate ++
  ". Verificare che esista una configurazione valida per il periodo richiesto."

/-- `PricingEngine.calculate`.  The thrown no-config error is modelled
as `Except.error`. -/
def calculate (configs : List PricingConfig) (store : Store)
    (coverageType : CoverageType) (effectiveDate : Date) :
    Except String PricingResult :=
  match getActiveConfig configs coverageType effectiveDate with
  | none => .error (noActiveConfigMsg coverageType effectiveDate)
  | some config =>
      let basePremium := store.squareMeters * config.ratePerSquareMeter
      let premium := max basePremium config.minimumPremium
      let rawInsuredSum := store.squareMeters * 1000
      let insuredSum := min rawInsuredSum config.maximumInsuredSum
      let adjustments := premium - basePremium
      .ok { premium := round2 premium,
            insuredSum := round2 insuredSum,
            breakdown := { squareMeters := store.squareMeters,
                           rateApplied := config.ratePerSquareMeter,
                           basePremium := round2 basePremium,
                           adjustments := round2 adjustments } }

/-- The body of `calculateBulk`'s loop: a successful calculation is
`Map.set` into `results`, a caught error is appended to `errors`. -/
def calculateBulkStep (configs : List PricingConfig)
    (coverageType : CoverageType) (effectiveDate : Date)
    (acc : BulkPricingResult) (store : Store) : BulkPricingResult :=
  match calculate configs store coverageType effectiveDate with
  | .ok result =>
      { acc with results := jsMapSet acc.results store.storeCode result }
  | .error e =>
      { acc with errors := acc.errors ++
          [{ storeCode := store.storeCode, coverageType := coverageType,
             error := e }] }

/-- `PricingEngine.calculateBulk`: every per-store failure is collected
as a structured error and processing continues; the function itself
never throws. -/
def calculateBulk (configs : List PricingConfig) (stores : List Store)
    (coverageType : CoverageType) (effectiveDate : Date) : BulkPricingResult :=
  stores.foldl (calculateBulkStep configs coverageType effectiveDate)
    { results := [], errors := [] }

/-! ### File Processor (src/lib/ingestion/file-processor.ts) -/

/-- A parsed raw CSV row: a JS plain object keyed by header name,
modelled as an insertion-ordered association list with one binding per
key. -/
abbrev RawRow := List (String × String)

structure ImportRow where
  storeCode : String
  businessName : String
  address : String
  squareMeters : ℚ
deriving DecidableEq, Repr

structure ImportError where
  row : Nat
  field : String
  value : String
  message : String
deriving DecidableEq, Repr

/-- The two floor-area sanity warnings (their Italian message strings
are reduced to the data they interpolate). -/
inductive ImportWarning
  | tooSmall (row : Nat) (squareMeters : ℚ)
  | tooLarge (row : Nat) (squareMeters : ℚ)
deriving DecidableEq, Repr

structure ValidationResult where
  isValid : Bool
  errors : List ImportError
  warnings : List ImportWarning
deriving DecidableEq, Repr

inductive ImportStatus
  | pending
  | processing
  | completed
  | failed
deriving DecidableEq, Repr

structure FileImport where
  importId : String
  filename : String
  status : ImportStatus
  totalRecords : Nat
  processedRecords : Nat
  errorRecords : Nat
  errors : List ImportError
  uploadedBy : String
  uploadedAt : Date
  completedAt : Option Date
deriving DecidableEq, Repr

/-- `ProcessingResult` (the `import` field is a Lean keyword, renamed
`imp`). -/
structure ProcessingResult where
  imp : FileImport
  rows : List ImportRow
  validation : ValidationResult
deriving DecidableEq, Repr

/-- `headers.forEach((header, index) => row[header] = values[index] ?? "")`. -/
def buildRow (headers values : List String) : RawRow :=
  (headers.enum).foldl
    (fun row (p : Nat × String) => jsMapSet row p.2 (values.getD p.1 ""))
    []

/-- `FileProcessor.parseCSV`.  The thrown too-few-lines error is
modelled as `Except.error`.  Both commas and semicolons split every
line, and all double quotes are stripped after splitting. -/
def parseCSV (content : String) : Except String (List RawRow) :=
  match splitNewlines (jsTrim content) with
  | [] => .error "CSV must have at least a header row and one data row"
  | [_] => .error "CSV must have at least a header row and one data row"
  | l0 :: rest =>
      let headers := (splitDelims l0).map (fun h => stripQuotes (jsTrim h))
      .ok (rest.filterMap fun rawLine =>
        let line := jsTrim rawLine
        if line = "" then none
        else
          let values := (splitDelims line).map (fun v => stripQuotes (jsTrim v))
          some (buildRow headers values))

/-- `Object.keys(rawRows[0]).find(h => keywords.some(k => h.toLowerCase().includes(k)))`. -/
def findCol (firstRow : RawRow) (keywords : List String) : Option String :=
  (firstRow.map Prod.fst).find? fun h =>
    keywords.any fun k => containsSub (lowerStr h) k

def storeCodeColMissingMsg : String :=
  "Colonna codice punto vendita non trovata. Attese: codice, store_code, code, o id"

def sqmColMissingMsg : String :=
  "Colonna metri quadri non trovata. Attese: metri, mq, square, o superficie"

/-- The per-row body of `mapRows`' `forEach`. -/
def mapRowsStep (storeCodeCol sqmCol businessNameCol addressCol : String)
    (hasBusinessNameCol hasAddressCol : Bool)
    (acc : List ImportRow × List ImportError) (p : Nat × RawRow) :
    List ImportRow × List ImportError :=
  let rowNum := p.1 + 2
  let raw := p.2
  let storeCode := jsTrim ((raw.lookup storeCodeCol).getD "")
  let squareMetersStr := jsTrim ((raw.lookup sqmCol).getD "")
  if storeCode = "" then
    (acc.1, acc.2 ++ [{ row := rowNum, field := "storeCode", value := storeCode,
                        message := "Codice store obbligatorio" }])
  else
    match jsParseFloat ⟨replaceFirstChar ',' '.' squareMetersStr.toList⟩ with
    | none =>
        (acc.1, acc.2 ++ [{ row := rowNum, field := "squareMeters",
                            value := squareMetersStr,
                            message := "Metri quadri deve essere un numero positivo" }])
    | some squareMeters =>
        if squareMeters ≤ 0 then
          (acc.1, acc.2 ++ [{ row := rowNum, field := "squareMeters",
                              value := squareMetersStr,
                              message := "Metri quadri deve essere un numero positivo" }])
        else
          (acc.1 ++ [{ storeCode := storeCode,
                       businessName :=
                         if hasBusinessNameCol then
                           jsTrim ((raw.lookup businessNameCol).getD "")
                         else "",
                       address :=
                         if hasAddressCol then
                           jsTrim ((raw.lookup addressCol).getD "")
                         else "",
                       squareMeters := squareMeters }], acc.2)

/-- `FileProcessor.mapRows`: heuristic column resolution, then per-row
mapping; required-column failures are reported at row 0 and abort. -/
def mapRows (rawRows : List RawRow) : List ImportRow × List ImportError :=
  match rawRows with
  | [] => ([], [])
  | r0 :: _ =>
      let storeCodeCol := findCol r0 ["codice", "store_code", "code", "id"]
      let businessNameCol := findCol r0 ["ragione", "nome", "name", "business"]
      let addressCol := findCol r0 ["indirizzo", "address", "ubicazione"]
      let sqmCol := findCol r0 ["metri", "mq", "square", "superficie"]
      match storeCodeCol, sqmCol with
      | some sc, some sq =>
          rawRows.enum.foldl
            (mapRowsStep sc sq (businessNameCol.getD "") (addressCol.getD "")
              businessNameCol.isSome addressCol.isSome)
            ([], [])
      | _, _ =>
          ([], (if storeCodeCol.isNone then
                  [{ row := 0, field := "storeCode", value := "",
                     message := storeCodeColMissingMsg }]
                else []) ++
               (if sqmCol.isNone then
                  [{ row := 0, field := "squareMeters", value := "",
                     message := sqmColMissingMsg }]
                else []))

/-- `FileProcessor.validate`: duplicate store codes are errors, floor
areas under 10 or over 50000 are warnings; `isValid` is exactly
"no errors". -/
def validate (rows : List ImportRow) : ValidationResult :=
  let final := rows.enum.foldl
    (fun (acc : List ImportError × List ImportWarning × List String)
         (p : Nat × ImportRow) =>
      let rowNum := p.1 + 2
      let row := p.2
      let errors :=
        if row.storeCode ∈ acc.2.2 then
          acc.1 ++ [{ row := rowNum, field := "storeCode",
                      value := row.storeCode,
                      message := "Codice duplicato nel file" }]
        else acc.1
      let seen := row.storeCode :: acc.2.2
      let warnings :=
        acc.2.1 ++
        (if row.squareMeters < 10 then [ImportWarning.tooSmall rowNum row.squareMeters] else []) ++
        (if row.squareMeters > 50000 then [ImportWarning.tooLarge rowNum row.squareMeters] else [])
      (errors, warnings, seen))
    ([], [], [])
  { isValid := final.1.isEmpty, errors := final.1, warnings := final.2.1 }

/-- `FileProcessor.processFile`: parse → map → validate; the overall
status and the returned rows depend on both mapping and validation
errors; a parse exception becomes a row-0 error. -/
def processFile (filename content uploadedBy : String) (now : Date) :
    ProcessingResult :=
  let rec0 : FileImport :=
    { importId := "IMP-" ++ toString now, filename := filename,
      status := .processing, totalRecords := 0, processedRecords := 0,
      errorRecords := 0, errors := [], uploadedBy := uploadedBy,
      uploadedAt := now, completedAt := none }
  match parseCSV content with
  | .ok rawRows =>
      let mapped := mapRows rawRows
      let rows := mapped.1
      let mappingErrors := mapped.2
      let validation := validate rows
      let allErrors := mappingErrors ++ validation.errors
      let hasNoErrors := mappingErrors.isEmpty && validation.isValid
      { imp := { rec0 with
          totalRecords := rawRows.length,
          errors := allErrors,
          processedRecords := rows.length,
          errorRecords := allErrors.length,
          status := if hasNoErrors then .completed else .failed,
          completedAt := some now },
        rows := if hasNoErrors then rows else [],
        validation := { isValid := hasNoErrors, errors := allErrors,
                        warnings := validation.warnings } }
  | .error e =>
      let errs : List ImportError :=
        [{ row := 0, field := "file", value := filename, message := e }]
      { imp :=
          { rec0 with
            status := .failed
            errors := errs
            completedAt := some now },
        rows := [],
        validation := { isValid := false, errors := errs, warnings := [] } }

/-! ### Lifecycle Manager (src/lib/core/lifecycle-manager.ts)

The audit log is an append-only internal list that never influences any
returned value; the operations are embedded as the pure functions they
compute on stores. -/

structure LifecycleEvent where
  storeCode : String
  previousStatus : StoreStatus
  newStatus : StoreStatus
  reason : Option String
  effectiveDate : Date
deriving DecidableEq, Repr

structure LifecycleResult where
  success : Bool
  store : Store
  event : Option LifecycleEvent
  error : Option String
deriving DecidableEq, Repr

def storeStatusName : StoreStatus → String
  | .pending => "pending"
  | .active => "active"
  | .suspended => "suspended"
  | .inactive => "inactive"

/-- `VALID_TRANSITIONS`. -/
def VALID_TRANSITIONS : StoreStatus → List StoreStatus
  | .pending => [.active, .inactive]
  | .active => [.suspended, .inactive]
  | .suspended => [.active, .inactive]
  | .inactive => [.pending]

/-- `LifecycleManager.isValidTransition`. -/
def isValidTransition (f t : StoreStatus) : Bool :=
  decide (t ∈ VALID_TRANSITIONS f)

/-- `LifecycleManager.activate`. -/
def activate (store : Store) (reason : Option String) (now : Date) :
    LifecycleResult :=
  if store.status = .active then
    { success := false, store := store, event := none,
      error := some "Lo store è già attivo" }
  else if ¬ isValidTransition store.status .active then
    { success := false, store := store, event := none,
      error := some ("Impossibile attivare uno store con stato: " ++
        storeStatusName store.status) }
  else
    let updatedStore : Store :=
      { store with
        status := .active
        activationDate := some (store.activationDate.getD now)
        closureDate := none
        updatedAt := now }
    { success := true, store := updatedStore,
      event := some { storeCode := store.storeCode,
                      previousStatus := store.status, newStatus := .active,
                      reason := reason, effectiveDate := now },
      error := none }

/-- `LifecycleManager.deactivate`. -/
def deactivate (store : Store) (reason : Option String) (now : Date) :
    LifecycleResult :=
  if store.status = .inactive then
    { success := false, store := store, event := none,
      error := some "Lo store è già inattivo" }
  else if ¬ isValidTransition store.status .inactive then
    { success := false, store := store, event := none,
      error := some ("Impossibile disattivare uno store con stato: " ++
        storeStatusName store.status) }
  else
    let updatedStore : Store :=
      { store with
        status := .inactive
        closureDate := some now
        updatedAt := now }
    { success := true, store := updatedStore,
      event := some { storeCode := store.storeCode,
                      previousStatus := store.status, newStatus := .inactive,
                      reason := reason, effectiveDate := now },
      error := none }

/-- `LifecycleManager.suspend`. -/
def suspendStore (store : Store) (reason : Option String) (now : Date) :
    LifecycleResult :=
  if store.status = .suspended then
    { success := false, store := store, event := none,
      error := some "Lo store è già sospeso" }
  else if ¬ isValidTransition store.status .suspended then
    { success := false, store := store, event := none,
      error := some ("Impossibile sospendere uno store con stato: " ++
        storeStatusName store.status) }
  else
    let updatedStore : Store :=
      { store with status := .suspended, updatedAt := now }
    { success := true, store := updatedStore,
      event := some { storeCode := store.storeCode,
                      previousStatus := store.status, newStatus := .suspended,
                      reason := reason, effectiveDate := now },
      error := none }

/-- `LifecycleManager.createStore`: a brand-new store in `pending` with
both lifecycle dates null. -/
def createStore (data : ImportRow) (now : Date) : Store :=
  { storeCode := data.storeCode, businessName := data.businessName,
    address := data.address, squareMeters := data.squareMeters,
    status := .pending, activationDate := none, closureDate := none,
    createdAt := now, updatedAt := now }

structure BulkUpdateResult where
  created : List Store
  updated : List Store
  deactivated : List Store
deriving DecidableEq, Repr

/-- The body of `processBulkUpdate`'s loop over `importedData`. -/
def bulkImportStep (existingStores : List (String × Store)) (now : Date)
    (acc : List Store × List Store) (data : ImportRow) :
    List Store × List Store :=
  match existingStores.lookup data.storeCode with
  | none =>
      let store := createStore data now
      let result := activate store (some "Importazione iniziale") now
      if result.success then (acc.1 ++ [result.store], acc.2) else acc
  | some existing =>
      if existing.businessName ≠ data.businessName ∨
         existing.address ≠ data.address ∨
         existing.squareMeters ≠ data.squareMeters then
        let updatedStore : Store :=
          { existing with
            businessName := data.businessName
            address := data.address
            squareMeters := data.squareMeters
            updatedAt := now }
        (acc.1, acc.2 ++ [updatedStore])
      else acc

/-- `LifecycleManager.processBulkUpdate`: full-replace reconciliation of
the existing store map against the imported roster. -/
def processBulkUpdate (existingStores : List (String × Store))
    (importedData : List ImportRow) (now : Date) : BulkUpdateResult :=
  let importedCodes := importedData.map (·.storeCode)
  let step1 := importedData.foldl (bulkImportStep existingStores now) ([], [])
  let deactivated := existingStores.foldl
    (fun acc (p : String × Store) =>
      if p.1 ∉ importedCodes ∧ p.2.status = .active then
        let result := deactivate p.2 (some "Non presente nella ultima importazione") now
        if result.success then acc ++ [result.store] else acc
      else acc)
    []
  { created := step1.1, updated := step1.2, deactivated := deactivated }

/-! ### Policy Service (src/lib/core/policy-service.ts) -/

structure CreatePolicyInput where
  store : Store
  coverageType : CoverageType
  effectiveFrom : Option Date
  durationMonths : Option Int
deriving DecidableEq, Repr

/-- `PolicyService.createPolicy`.  Note the source invokes
`pricingEngine.calculate(store, coverageType)` WITHOUT an effective
date, so the engine's default (`new Date()`, the current time `now`)
selects the config — `effectiveFrom` is used only for the policy's own
window. -/
def createPolicy (configs : List PricingConfig) (input : CreatePolicyInput)
    (now : Date) : Except String Policy :=
  let effectiveFrom := input.effectiveFrom.getD now
  let durationMonths := input.durationMonths.getD 12
  match calculate configs input.store input.coverageType now with
  | .error e => .error e
  | .ok pricing =>
      .ok { policyId := "POL-" ++ input.store.storeCode ++ "-" ++ toString now,
            storeCode := input.store.storeCode,
            coverageType := input.coverageType,
            insuredSum := pricing.insuredSum,
            premium := pricing.premium,
            effectiveFrom := effectiveFrom,
            effectiveTo := addMonthsJS effectiveFrom durationMonths,
            status := .active,
            createdAt := now, updatedAt := now }

/-! ### Import Queue (src/lib/ingestion/import-queue.ts)

Subscriber callbacks are opaque functions; they are modelled by
identifiers, and `notifySubscribers` is modelled by recording, for every
currently registered subscriber, the (sanitized) job published to it in
the `delivered` trace.  The asynchronous `processNext` worker is a
separate step not required by the claims below; `enqueue` is embedded up
to (and excluding) its final `processNext()` trigger. -/

inductive JobStatus
  | queued
  | processing
  | completed
  | failed
deriving DecidableEq, Repr

/-- The content-free view of a job (`ImportJob` in the source). -/
structure ImportJob where
  jobId : String
  filename : String
  uploadedBy : String
  status : JobStatus
  progress : Nat
  result : Option ProcessingResult
  createdAt : Date
  startedAt : Option Date
  completedAt : Option Date
  error : Option String
deriving DecidableEq, Repr

/-- `InternalJob extends ImportJob`: the stored job, which additionally
holds the raw file content until it is cleared. -/
structure InternalJob where
  jobId : String
  filename : String
  uploadedBy : String
  status : JobStatus
  progress : Nat
  result : Option ProcessingResult
  createdAt : Date
  startedAt : Option Date
  completedAt : Option Date
  error : Option String
  content : Option String
deriving DecidableEq, Repr

/-- Identifier of a registered subscriber callback. -/
abbrev SubId := Nat

structure QueueState where
  jobs : List (String × InternalJob)
  queue : List String
  processing : Bool
  subscribers : List SubId
  stores : List (String × Store)
  currentSessionId : Option String
  delivered : List (SubId × ImportJob)
deriving DecidableEq, Repr

def AUTHORIZED_ROLES : List UserRole := [.admin, .broker]

def MAX_JOBS_PER_SESSION : Nat := 100

def JOB_RETENTION_MS : Int := 24 * 60 * 60 * 1000

/-- `ImportQueue.sanitizeJob`: `const { content, ...sanitized } = job`. -/
def sanitizeJob (j : InternalJob) : ImportJob :=
  { jobId := j.jobId, filename := j.filename, uploadedBy := j.uploadedBy,
    status := j.status, progress := j.progress, result := j.result,
    createdAt := j.createdAt, startedAt := j.startedAt,
    completedAt := j.completedAt, error := j.error }

/-- `ImportQueue.notifySubscribers`: invoke every registered callback
with the (already sanitized) job. -/
def notifySubscribers (s : QueueState) (job : ImportJob) : QueueState :=
  { s with delivered := s.delivered ++ s.subscribers.map (fun c => (c, job)) }

/-- `ImportQueue.pruneOldJobs`: drop terminal jobs older than the
24-hour retention window. -/
def pruneOldJobs (s : QueueState) (now : Date) : QueueState :=
  { s with jobs := s.jobs.filter fun p =>
      ¬ ((p.2.status = .completed ∨ p.2.status = .failed) ∧
         now - p.2.createdAt > JOB_RETENTION_MS) }

def forbiddenMsg : String :=
  "Accesso negato: solo admin, broker possono eseguire importazioni"

def capacityMsg : String :=
  "Limite massimo di 100 job per sessione raggiunto. Attendere il completamento o eliminare job esistenti."

/-- `ImportQueue.enqueue`.  Returns the queue state after the call
together with the outcome; a thrown error leaves behind exactly the
mutations performed before the throw.  The `uuid` parameter stands for
the random `crypto.randomUUID()` suffix of the job id. -/
def enqueue (s : QueueState) (filename content uploadedBy : String)
    (userRole : UserRole) (now : Date) (uuid : String) :
    QueueState × Except String ImportJob :=
  if userRole ∉ AUTHORIZED_ROLES then
    (s, .error forbiddenMsg)
  else
    let s1 := pruneOldJobs s now
    if s1.jobs.length ≥ MAX_JOBS_PER_SESSION then
      (s1, .error capacityMsg)
    else
      let job : InternalJob :=
        { jobId := "JOB-" ++ toString now ++ "-" ++ uuid,
          filename := filename, content := some content,
          uploadedBy := uploadedBy, status := .queued, progress := 0,
          result := none, createdAt := now, startedAt := none,
          completedAt := none, error := none }
      let s2 := { s1 with jobs := jsMapSet s1.jobs job.jobId job,
                          queue := s1.queue ++ [job.jobId] }
      let s3 := notifySubscribers s2 (sanitizeJob job)
      (s3, .ok (sanitizeJob job))

/-- `ImportQueue.getJob`: the stored job, content-stripped. -/
def getJob (s : QueueState) (jobId : String) : Option ImportJob :=
  (s.jobs.lookup jobId).map sanitizeJob

/-- Stable insertion of a job into a list sorted by `createdAt`
descending (JS `Array.prototype.sort` is stable). -/
def insertByCreatedDesc (x : ImportJob) : List ImportJob → List ImportJob
  | [] => [x]
  | y :: ys =>
      if y.createdAt ≤ x.createdAt then x :: y :: ys
      else y :: insertByCreatedDesc x ys

def sortByCreatedDesc : List ImportJob → List ImportJob
  | [] => []
  | x :: xs => insertByCreatedDesc x (sortByCreatedDesc xs)

/-- `ImportQueue.getAllJobs`: all jobs, content-stripped, newest
first. -/
def getAllJobs (s : QueueState) : List ImportJob :=
  sortByCreatedDesc (s.jobs.map (fun p => sanitizeJob p.2))

/-- `ImportQueue.clearSessionData`: wipes jobs, queue, stores and the
session id and resets the worker flag; subscribers are deliberately
kept. -/
def clearSessionData (s : QueueState) : QueueState :=
  { s with jobs := [], queue := [], processing := false, stores := [],
           currentSessionId := none }

/-- `ImportQueue.initSession`. -/
def initSession (s : QueueState) (sessionId : String) : QueueState :=
  if s.currentSessionId = some sessionId then s
  else { clearSessionData s with currentSessionId := some sessionId }

/-- `ImportQueue.subscribe` (adding the callback to the `Set`); the
returned unsubscribe closure is `unsubscribe` below. -/
def subscribe (s : QueueState) (c : SubId) : QueueState :=
  if c ∈ s.subscribers then s
  else { s with subscribers := s.subscribers ++ [c] }

/-- The unsubscribe closure returned by `subscribe`:
`this.subscribers.delete(callback)`. -/
def unsubscribe (s : QueueState) (c : SubId) : QueueState :=
  { s with subscribers := s.subscribers.filter (fun d => d ≠ c) }

/-! ## Claims about the Import Queue -/

/-- Agreement of two internal jobs on every field other than `content`. -/
def jobsShadowEq (a b : InternalJob) : Prop :=
  a.jobId = b.jobId ∧ a.filename = b.filename ∧ a.uploadedBy = b.uploadedBy ∧
  a.status = b.status ∧ a.progress = b.progress ∧ a.result = b.result ∧
  a.createdAt = b.createdAt ∧ a.startedAt = b.startedAt ∧
  a.completedAt = b.completedAt ∧ a.error = b.error

instance (a b : InternalJob) : Decidable (jobsShadowEq a b) := by
  unfold jobsShadowEq; infer_instance

lemma sanitizeJob_eq_of_shadowEq {a b : InternalJob} (h : jobsShadowEq a b) :
    sanitizeJob a = sanitizeJob b := by
  obtain ⟨h1, h2, h3, h4, h5, h6, h7, h8, h9, h10⟩ := h
  simp [sanitizeJob, h1, h2, h3, h4, h5, h6, h7, h8, h9, h10]

/-- Agreement of two queue states everywhere except the `content` field
of the stored jobs. -/
def statesShadowEq (s t : QueueState) : Prop :=
  List.Forall₂ (fun p q => p.1 = q.1 ∧ jobsShadowEq p.2 q.2) s.jobs t.jobs ∧
  s.queue = t.queue ∧ s.processing = t.processing ∧
  s.subscribers = t.subscribers ∧ s.stores = t.stores ∧
  s.currentSessionId = t.currentSessionId ∧ s.delivered = t.delivered

lemma lookup_map_sanitize_of_shadowEq
    {xs ys : List (String × InternalJob)}
    (h : List.Forall₂ (fun p q => p.1 = q.1 ∧ jobsShadowEq p.2 q.2) xs ys)
    (jobId : String) :
    (xs.lookup jobId).map sanitizeJob = (ys.lookup jobId).map sanitizeJob := by
  induction xs generalizing ys with
  | nil => cases h; rfl
  | cons p xs' ih =>
      cases h with
      | cons hpq htail =>
          rename_i q ys'
          obtain ⟨pk, pv⟩ := p
          obtain ⟨qk, qv⟩ := q
          obtain ⟨hkey, hjob⟩ := hpq
          simp only at hkey
          subst hkey
          simp only [List.lookup]
          cases hb : jobId == pk with
          | true => simp [sanitizeJob_eq_of_shadowEq hjob]
          | false => simpa using ih htail

lemma map_sanitize_of_shadowEq
    {xs ys : List (String × InternalJob)}
    (h : List.Forall₂ (fun p q => p.1 = q.1 ∧ jobsShadowEq p.2 q.2) xs ys) :
    xs.map (fun p => sanitizeJob p.2) = ys.map (fun p => sanitizeJob p.2) := by
  induction h with
  | nil => rfl
  | cons hpq _ ih => simp [sanitizeJob_eq_of_shadowEq hpq.2, ih]

/-- C9: the read accessors of the import queue never expose the raw file
content: at every point of a job's lifecycle, `getJob` and `getAllJobs`
return content-free views, i.e. two queue states that are identical
except for the raw content stored on their internal jobs produce
identical outputs from `getJob` and `getAllJobs`. -/
theorem accessors_content_oblivious (s t : QueueState)
    (h : statesShadowEq s t) :
    (∀ jobId, getJob s jobId = getJob t jobId) ∧ getAllJobs s = getAllJobs t := by
  obtain ⟨hjobs, -⟩ := h
  constructor
  · intro jobId
    exact lookup_map_sanitize_of_shadowEq hjobs jobId
  · unfold getAllJobs
    rw [map_sanitize_of_shadowEq hjobs]

def sampleResult : ProcessingResult := processFile "r.csv" "codice;mq\nS1;100" "u" 0

def sampleJobA : InternalJob :=
  { jobId := "JOB-1-aa", filename := "r.csv", uploadedBy := "u",
    status := .completed, progress := 100, result := some sampleResult,
    createdAt := 1, startedAt := some 1, completedAt := some 2,
    error := none, content := some "codice;mq\nS1;100" }

def sampleJobB : InternalJob := { sampleJobA with content := none }

def sampleStateA : QueueState :=
  { jobs := [("JOB-1-aa", sampleJobA)], queue := [], processing := false,
    subscribers := [7], stores := [], currentSessionId := some "sess",
    delivered := [] }

def sampleStateB : QueueState := { sampleStateA with jobs := [("JOB-1-aa", sampleJobB)] }

/-- Witness for C9 at concrete states: one holds the raw content, the
other has it cleared, and both accessors agree. -/
theorem accessors_content_oblivious_witness :
    getJob sampleStateA "JOB-1-aa" = getJob sampleStateB "JOB-1-aa" ∧
    getAllJobs sampleStateA = getAllJobs sampleStateB := by
  have h : statesShadowEq sampleStateA sampleStateB := by
    refine ⟨.cons ⟨rfl, ?_⟩ .nil, rfl, rfl, rfl, rfl, rfl, rfl⟩
    exact ⟨rfl, rfl, rfl, rfl, rfl, rfl, rfl, rfl, rfl, rfl⟩
  exact ⟨(accessors_content_oblivious sampleStateA sampleStateB h).1 "JOB-1-aa",
         (accessors_content_oblivious sampleStateA sampleStateB h).2⟩

/-- C8: `enqueue` with a role outside `{admin, broker}` throws before
any state change: the queue state after the call is exactly the state
before it — no job in the map, queue or `getAllJobs()`, no publication,
no pruning. -/
theorem enqueue_unauthorized_throws_before_mutation
    (s : QueueState) (filename content uploadedBy : String)
    (role : UserRole) (now : Date) (uuid : String)
    (hrole : role ∉ AUTHORIZED_ROLES) :
    enqueue s filename content uploadedBy role now uuid = (s, .error forbiddenMsg) ∧
    getAllJobs (enqueue s filename content uploadedBy role now uuid).1 = getAllJobs s ∧
    (enqueue s filename content uploadedBy role now uuid).1.delivered = s.delivered ∧
    (enqueue s filename content uploadedBy role now uuid).1.queue = s.queue ∧
    (enqueue s filename content uploadedBy role now uuid).1.jobs = s.jobs := by
  have h : enqueue s filename content uploadedBy role now uuid = (s, .error forbiddenMsg) := by
    simp [enqueue, hrole]
  exact ⟨h, by rw [h], by rw [h], by rw [h], by rw [h]⟩

/-- Witness for C8: the read-only `store_manager` role is rejected and
the concrete state is untouched. -/
theorem enqueue_unauthorized_throws_before_mutation_witness :
    UserRole.store_manager ∉ AUTHORIZED_ROLES ∧
    enqueue sampleStateA "f.csv" "codice;mq\nS1;100" "mgr" .store_manager 5 "bb" =
      (sampleStateA, .error forbiddenMsg) := by
  refine ⟨by decide, ?_⟩
  exact (enqueue_unauthorized_throws_before_mutation sampleStateA "f.csv"
    "codice;mq\nS1;100" "mgr" .store_manager 5 "bb" (by decide)).1

/-- C10: `clearSessionData` (and `initSession` with a different session
id) wipes jobs, queue, stores, session id and the worker flag but keeps
the subscriber set: a callback registered before the switch still
receives the publication of a job enqueued after the switch, until its
unsubscribe closure is invoked, after which it receives nothing new. -/
theorem clearSession_keeps_subscribers
    (s : QueueState) (sessionId : String) (c : SubId)
    (filename content uploadedBy : String) (role : UserRole)
    (now : Date) (uuid : String)
    (hsub : c ∈ s.subscribers) (hrole : role ∈ AUTHORIZED_ROLES)
    (hsess : s.currentSessionId ≠ some sessionId) :
    clearSessionData s =
      { jobs := [], queue := [], processing := false,
        subscribers := s.subscribers, stores := [],
        currentSessionId := none, delivered := s.delivered } ∧
    initSession s sessionId =
      { jobs := [], queue := [], processing := false,
        subscribers := s.subscribers, stores := [],
        currentSessionId := some sessionId, delivered := s.delivered } ∧
    (∃ job,
      (enqueue (initSession s sessionId) filename content uploadedBy role now uuid).2 =
        .ok job ∧
      (c, job) ∈
        (enqueue (initSession s sessionId) filename content uploadedBy role now uuid).1.delivered) ∧
    c ∉ (unsubscribe (initSession s sessionId) c).subscribers ∧
    (∀ x,
      (c, x) ∈
        (enqueue (unsubscribe (initSession s sessionId) c) filename content uploadedBy role now uuid).1.delivered →
      (c, x) ∈ s.delivered) := by
  have hclear : clearSessionData s =
      { jobs := [], queue := [], processing := false,
        subscribers := s.subscribers, stores := [],
        currentSessionId := none, delivered := s.delivered } := rfl
  have hinit : initSession s sessionId =
      { jobs := [], queue := [], processing := false,
        subscribers := s.subscribers, stores := [],
        currentSessionId := some sessionId, delivered := s.delivered } := by
    simp [initSession, hsess, clearSessionData]
  have hnotin : ¬ role ∉ AUTHORIZED_ROLES := fun h => h hrole
  refine ⟨hclear, hinit, ?_, ?_, ?_⟩
  · refine ⟨sanitizeJob
      { jobId := "JOB-" ++ toString now ++ "-" ++ uuid, filename := filename,
        content := some content, uploadedBy := uploadedBy, status := .queued,
        progress := 0, result := none, createdAt := now, startedAt := none,
        completedAt := none, error := none }, ?_, ?_⟩
    · rw [hinit]
      simp only [enqueue]
      rw [if_neg hnotin]
      simp [pruneOldJobs, MAX_JOBS_PER_SESSION, jsMapSet, notifySubscribers]
    · rw [hinit]
      simp only [enqueue]
      rw [if_neg hnotin]
      simp [pruneOldJobs, MAX_JOBS_PER_SESSION, jsMapSet, notifySubscribers]
      exact Or.inr hsub
  · rw [hinit]
    simp [unsubscribe]
  · intro x hx
    rw [hinit] at hx
    simp only [enqueue, hnotin, pruneOldJobs, notifySubscribers, jsMapSet,
      unsubscribe] at hx
    simp [MAX_JOBS_PER_SESSION] at hx
    rcases hx with hx | ⟨d, ⟨_, hdc⟩, hd2, -⟩
    · exact hx
    · exact absurd hd2 hdc

/-- Witness for C10: a subscriber registered before the session switch
still gets the queued-job publication of an enqueue performed after the
switch. -/
theorem clearSession_keeps_subscribers_witness :
    (7 : SubId) ∈ sampleStateA.subscribers ∧
    (∃ job,
      (enqueue (initSession sampleStateA "sess2") "f.csv" "codice;mq\nS1;100"
          "u" .admin 9 "cc").2 = .ok job ∧
      (7, job) ∈
        (enqueue (initSession sampleStateA "sess2") "f.csv" "codice;mq\nS1;100"
          "u" .admin 9 "cc").1.delivered) := by
  refine ⟨by decide, ?_⟩
  exact (clearSession_keeps_subscribers sampleStateA "sess2" 7 "f.csv"
    "codice;mq\nS1;100" "u" .admin 9 "cc" (by decide) (by decide)
    (by decide)).2.2.1

/-! ## Claims about the Lifecycle Manager -/

def exActiveStore : Store :=
  { storeCode := "S1", businessName := "Negozio", address := "Via Roma 1",
    squareMeters := 100, status := .active, activationDate := some 10,
    closureDate := none, createdAt := 0, updatedAt := 0 }

/-- Counterexample for C3: from `active`, `deactivate` succeeds and
yields an `inactive` store, but the immediately following `activate`
FAILS — `inactive → active` is not in `VALID_TRANSITIONS`
(`inactive → {pending}` only) — leaving the store `inactive`, contrary
to the claim that the pair of calls restores `active`. -/
theorem deactivate_then_activate_fails_cex :
    (deactivate exActiveStore none 20).success = true ∧
    (activate (deactivate exActiveStore none 20).store none 30).success = false ∧
    (activate (deactivate exActiveStore none 20).store none 30).store =
      (deactivate exActiveStore none 20).store ∧
    (activate (deactivate exActiveStore none 20).store none 30).store.status =
      .inactive := by
  decide

/-- C3 (amended): `activate()` on an already-`active` store fails with a
descriptive error and does not mutate; `deactivate()` followed
immediately by `activate()` does NOT restore `active` — the second call
fails and the store stays `inactive` (direct reactivation is not a
valid transition); across `activate`/`deactivate`/`suspend`,
`activationDate` once set is never cleared and a fresh one is assigned
on successful activation only when none existed; `closureDate` is set
on deactivation and cleared on successful activation. -/
theorem lifecycle_transition_and_date_invariants
    (store : Store) (r1 r2 : Option String) (n1 n2 : Date) :
    (store.status = .active →
      activate store r1 n1 =
        { success := false, store := store, event := none,
          error := some "Lo store è già attivo" }) ∧
    ((deactivate store r1 n1).success = true →
      (deactivate store r1 n1).store.status = .inactive ∧
      activate (deactivate store r1 n1).store r2 n2 =
        { success := false, store := (deactivate store r1 n1).store,
          event := none,
          error := some "Impossibile attivare uno store con stato: inactive" }) ∧
    (∀ d, store.activationDate = some d →
      (activate store r1 n1).store.activationDate = some d ∧
      (deactivate store r1 n1).store.activationDate = some d ∧
      (suspendStore store r1 n1).store.activationDate = some d) ∧
    (store.activationDate = none → (activate store r1 n1).success = true →
      (activate store r1 n1).store.activationDate = some n1) ∧
    ((deactivate store r1 n1).success = true →
      (deactivate store r1 n1).store.closureDate = some n1) ∧
    ((activate store r1 n1).success = true →
      (activate store r1 n1).store.closureDate = none) := by
  obtain ⟨code, name, addr, sqm, status, actD, cloD, cAt, uAt⟩ := store
  cases status <;>
    simp_all [activate, deactivate, suspendStore, isValidTransition,
      VALID_TRANSITIONS, storeStatusName]

/-- Witness for C3 (amended) at a concrete `active` store with a set
activation date. -/
theorem lifecycle_transition_and_date_invariants_witness :
    activate exActiveStore none 20 =
      { success := false, store := exActiveStore, event := none,
        error := some "Lo store è già attivo" } ∧
    (deactivate exActiveStore none 20).store.closureDate = some 20 ∧
    (deactivate exActiveStore none 20).store.activationDate = some 10 := by
  have h := lifecycle_transition_and_date_invariants exActiveStore none none 20 30
  have hde : (deactivate exActiveStore none 20).success = true := by decide
  exact ⟨h.1 (by decide), h.2.2.2.2.1 hde, (h.2.2.1 10 (by decide)).2.1⟩

def exInactiveStore : Store :=
  { storeCode := "S1", businessName := "Vecchio Nome", address := "Via Roma 1",
    squareMeters := 100, status := .inactive, activationDate := some 10,
    closureDate := some 15, createdAt := 0, updatedAt := 0 }

/-- Counterexample for C2: an imported row matching a previously
deactivated store with a differing business name produces an updated
store whose status is still `inactive` — the update is applied but the
store is NOT reactivated. -/
theorem bulkUpdate_no_reactivation_cex :
    (processBulkUpdate [("S1", exInactiveStore)]
        [{ storeCode := "S1", businessName := "Nuovo Nome",
           address := "Via Roma 1", squareMeters := 100 }] 50).updated =
      [{ exInactiveStore with businessName := "Nuovo Nome", updatedAt := 50 }] ∧
    ({ exInactiveStore with businessName := "Nuovo Nome", updatedAt := 50 } : Store).status =
      .inactive := by
  decide

lemma mem_snd_foldl_bulkImportStep (existingStores : List (String × Store))
    (now : Date) (x : Store) :
    ∀ (l : List ImportRow) (acc : List Store × List Store), x ∈ acc.2 →
      x ∈ (l.foldl (bulkImportStep existingStores now) acc).2
  | [], _, hx => hx
  | d :: l, acc, hx => by
      apply mem_snd_foldl_bulkImportStep existingStores now x l
      unfold bulkImportStep
      cases existingStores.lookup d.storeCode with
      | none =>
          by_cases hs : (activate (createStore d now) (some "Importazione iniziale") now).success
          · simpa [hs] using hx
          · simpa [hs] using hx
      | some ex =>
          by_cases hd : ex.businessName ≠ d.businessName ∨ ex.address ≠ d.address ∨
              ex.squareMeters ≠ d.squareMeters
          · simp only [hd, if_pos]
            exact List.mem_append_left _ hx
          · simpa [hd] using hx

lemma mem_updated_of_foldl_bulkImportStep (existingStores : List (String × Store))
    (now : Date) (data : ImportRow) (ex : Store)
    (hlook : existingStores.lookup data.storeCode = some ex)
    (hdiff : ex.businessName ≠ data.businessName ∨ ex.address ≠ data.address ∨
      ex.squareMeters ≠ data.squareMeters) :
    ∀ (l : List ImportRow) (acc : List Store × List Store), data ∈ l →
      ({ ex with businessName := data.businessName, address := data.address,
                 squareMeters := data.squareMeters, updatedAt := now } : Store) ∈
        (l.foldl (bulkImportStep existingStores now) acc).2
  | [], _, hmem => absurd hmem (List.not_mem_nil data)
  | d :: l, acc, hmem => by
      rcases List.mem_cons.1 hmem with heq | htail
      · subst heq
        rw [List.foldl_cons]
        apply mem_snd_foldl_bulkImportStep
        unfold bulkImportStep
        simp only [hlook]
        rw [if_pos hdiff]
        exact List.mem_append_right _ (List.mem_singleton.2 rfl)
      · exact mem_updated_of_foldl_bulkImportStep existingStores now data ex
          hlook hdiff l _ htail

/-- C2 (amended): when an imported row's store code matches an existing
store whose business name, address or floor area differs,
`processBulkUpdate` applies the update to exactly those fields (plus
`updatedAt`) and includes the result in `updated`; the store's previous
status is preserved — in particular a previously deactivated store is
NOT reactivated — and its lifecycle dates are untouched. -/
theorem bulkUpdate_applies_update_without_reactivation
    (existingStores : List (String × Store)) (importedData : List ImportRow)
    (now : Date) (data : ImportRow) (ex : Store)
    (hmem : data ∈ importedData)
    (hlook : existingStores.lookup data.storeCode = some ex)
    (hdiff : ex.businessName ≠ data.businessName ∨ ex.address ≠ data.address ∨
      ex.squareMeters ≠ data.squareMeters) :
    ({ ex with businessName := data.businessName, address := data.address,
               squareMeters := data.squareMeters, updatedAt := now } : Store) ∈
      (processBulkUpdate existingStores importedData now).updated ∧
    ({ ex with businessName := data.businessName, address := data.address,
               squareMeters := data.squareMeters, updatedAt := now } : Store).status =
      ex.status ∧
    ({ ex with businessName := data.businessName, address := data.address,
               squareMeters := data.squareMeters, updatedAt := now } : Store).activationDate =
      ex.activationDate ∧
    ({ ex with businessName := data.businessName, address := data.address,
               squareMeters := data.squareMeters, updatedAt := now } : Store).closureDate =
      ex.closureDate := by
  refine ⟨?_, rfl, rfl, rfl⟩
  unfold processBulkUpdate
  exact mem_updated_of_foldl_bulkImportStep existingStores now data ex hlook hdiff
    importedData ([], []) hmem

/-- Witness for C2 (amended) at the concrete deactivated store. -/
theorem bulkUpdate_applies_update_without_reactivation_witness :
    ({ exInactiveStore with businessName := "Nuovo Nome", updatedAt := 50 } : Store) ∈
      (processBulkUpdate [("S1", exInactiveStore)]
        [{ storeCode := "S1", businessName := "Nuovo Nome",
           address := "Via Roma 1", squareMeters := 100 }] 50).updated := by
  exact (bulkUpdate_applies_update_without_reactivation [("S1", exInactiveStore)]
    [{ storeCode := "S1", businessName := "Nuovo Nome", address := "Via Roma 1",
       squareMeters := 100 }] 50
    { storeCode := "S1", businessName := "Nuovo Nome", address := "Via Roma 1",
      squareMeters := 100 }
    exInactiveStore (by decide) (by decide) (by decide)).1

/-! ## Claims about the Pricing Engine -/

/-- C4: with an active config of rate `r`, minimum `m` and cap `M`, and
floor area `a > 0`, `calculate` returns
`premium = round2 (max (a*r) m)`, `insuredSum = round2 (min (a*1000) M)`
(rounding to 2 decimals, halves up), and
`breakdown.adjustments = round2 (premium − basePremium)` (the
minimum-floor enforcement, computed before rounding), which is
non-negative. -/
theorem calculate_premium_insuredSum_formulas
    (configs : List PricingConfig) (store : Store) (ct : CoverageType)
    (d : Date) (cfg : PricingConfig)
    (hcfg : getActiveConfig configs ct d = some cfg)
    (hpos : 0 < store.squareMeters) :
    calculate configs store ct d = .ok
      { premium := round2 (max (store.squareMeters * cfg.ratePerSquareMeter)
          cfg.minimumPremium),
        insuredSum := round2 (min (store.squareMeters * 1000)
          cfg.maximumInsuredSum),
        breakdown :=
          { squareMeters := store.squareMeters,
            rateApplied := cfg.ratePerSquareMeter,
            basePremium := round2 (store.squareMeters * cfg.ratePerSquareMeter),
            adjustments := round2
              (max (store.squareMeters * cfg.ratePerSquareMeter) cfg.minimumPremium -
                store.squareMeters * cfg.ratePerSquareMeter) } } ∧
    0 ≤ round2
      (max (store.squareMeters * cfg.ratePerSquareMeter) cfg.minimumPremium -
        store.squareMeters * cfg.ratePerSquareMeter) := by
  constructor
  · simp only [calculate, hcfg]
  · have hx : (0 : ℚ) ≤
        max (store.squareMeters * cfg.ratePerSquareMeter) cfg.minimumPremium -
          store.squareMeters * cfg.ratePerSquareMeter :=
      sub_nonneg.2 (le_max_left _ _)
    unfold round2
    apply div_nonneg _ (by norm_num)
    exact_mod_cast Int.floor_nonneg.2 (by linarith)

/-- Witness for C4: the default `catnat` config at 2025-01-01 on a
100 m² store (the 500 € minimum premium floor applies). -/
theorem calculate_premium_insuredSum_formulas_witness :
    calculate DEFAULT_PRICING_CONFIGS exActiveStore .catnat 1735689600000 = .ok
      { premium := round2 (max ((100 : ℚ) * (5/2)) 500),
        insuredSum := round2 (min ((100 : ℚ) * 1000) 10000000),
        breakdown :=
          { squareMeters := 100, rateApplied := 5/2,
            basePremium := round2 ((100 : ℚ) * (5/2)),
            adjustments := round2 (max ((100 : ℚ) * (5/2)) 500 - 100 * (5/2)) } } ∧
    0 ≤ round2 (max ((100 : ℚ) * (5/2)) 500 - 100 * (5/2)) := by
  exact calculate_premium_insuredSum_formulas DEFAULT_PRICING_CONFIGS
    exActiveStore .catnat 1735689600000
    { coverageType := .catnat, ratePerSquareMeter := 5/2,
      minimumPremium := 500, maximumInsuredSum := 10000000,
      effectiveFrom := 1704067200000, effectiveTo := none }
    (by rfl) (by norm_num [exActiveStore])

def exActiveStoreDup : Store := { exActiveStore with squareMeters := 200 }

def exActiveStoreS2 : Store := { exActiveStore with storeCode := "S2" }

/-- Counterexample for C5: two stores sharing the store code `"S1"`
both price successfully, but `Map.set` collapses them to one entry, so
`results.size + errors.size = 1 ≠ 2 = stores.length`. -/
theorem calculateBulk_duplicate_codes_cex :
    (calculateBulk DEFAULT_PRICING_CONFIGS [exActiveStore, exActiveStoreDup]
        .catnat 1735689600000).results.length +
      (calculateBulk DEFAULT_PRICING_CONFIGS [exActiveStore, exActiveStoreDup]
        .catnat 1735689600000).errors.length ≠
    ([exActiveStore, exActiveStoreDup] : List Store).length := by
  decide

lemma jsMapSet_length_of_notMem {α : Type} (m : List (String × α)) (k : String)
    (v : α) (h : k ∉ m.map Prod.fst) :
    (jsMapSet m k v).length = m.length + 1 := by
  induction m with
  | nil => rfl
  | cons p rest ih =>
      obtain ⟨k', v'⟩ := p
      simp only [List.map_cons, List.mem_cons] at h
      push_neg at h
      simp only [jsMapSet, if_neg (Ne.symm h.1), List.length_cons, ih h.2]

lemma mem_keys_jsMapSet {α : Type} (m : List (String × α)) (k : String)
    (v : α) (x : String) :
    x ∈ (jsMapSet m k v).map Prod.fst ↔ x = k ∨ x ∈ m.map Prod.fst := by
  induction m with
  | nil => simp [jsMapSet]
  | cons p rest ih =>
      obtain ⟨k', v'⟩ := p
      by_cases hk : k' = k
      · subst hk
        simp [jsMapSet]
      · simp only [jsMapSet, if_neg hk, List.map_cons, List.mem_cons, ih]
        tauto

lemma lookup_jsMapSet_self {α : Type} (m : List (String × α)) (k : String)
    (v : α) : (jsMapSet m k v).lookup k = some v := by
  induction m with
  | nil => simp [jsMapSet, List.lookup]
  | cons p rest ih =>
      obtain ⟨k', v'⟩ := p
      by_cases hk : k' = k
      · subst hk
        simp [jsMapSet, List.lookup]
      · simp only [jsMapSet, if_neg hk, List.lookup]
        cases hb : k == k' with
        | true => exact absurd (beq_iff_eq.1 hb).symm hk
        | false => exact ih

lemma lookup_jsMapSet_ne {α : Type} (m : List (String × α)) (k x : String)
    (v : α) (h : x ≠ k) : (jsMapSet m k v).lookup x = m.lookup x := by
  induction m with
  | nil =>
      simp only [jsMapSet, List.lookup]
      cases hb : x == k with
      | true => exact absurd (beq_iff_eq.1 hb) h
      | false => rfl
  | cons p rest ih =>
      obtain ⟨k', v'⟩ := p
      by_cases hk : k' = k
      · subst hk
        simp only [jsMapSet, if_pos rfl, List.lookup]
        cases hb : x == k' with
        | true => exact absurd (beq_iff_eq.1 hb) h
        | false => rfl
      · simp only [jsMapSet, if_neg hk, List.lookup]
        cases hb : x == k' with
        | true => rfl
        | false => exact ih

lemma calculateBulk_error_mem_preserved (configs : List PricingConfig)
    (ct : CoverageType) (d : Date) (e : PricingError) :
    ∀ (stores : List Store) (acc : BulkPricingResult), e ∈ acc.errors →
      e ∈ (stores.foldl (calculateBulkStep configs ct d) acc).errors
  | [], _, hx => hx
  | s :: l, acc, hx => by
      rw [List.foldl_cons]
      apply calculateBulk_error_mem_preserved configs ct d e l
      unfold calculateBulkStep
      cases calculate configs s ct d with
      | ok r => exact hx
      | error msg => exact List.mem_append_left _ hx

lemma calculateBulk_lookup_preserved (configs : List PricingConfig)
    (ct : CoverageType) (d : Date) (k : String) :
    ∀ (stores : List Store) (acc : BulkPricingResult),
      (∀ s ∈ stores, s.storeCode ≠ k) →
      ((stores.foldl (calculateBulkStep configs ct d) acc).results.lookup k) =
        acc.results.lookup k
  | [], _, _ => rfl
  | s :: l, acc, h => by
      rw [List.foldl_cons]
      rw [calculateBulk_lookup_preserved configs ct d k l _
        (fun t ht => h t (List.mem_cons_of_mem s ht))]
      unfold calculateBulkStep
      cases calculate configs s ct d with
      | ok r =>
          exact lookup_jsMapSet_ne _ _ _ _ (Ne.symm (h s (List.mem_cons_self s l)))
      | error msg => rfl

lemma calculateBulk_fold_length (configs : List PricingConfig)
    (ct : CoverageType) (d : Date) :
    ∀ (stores : List Store) (acc : BulkPricingResult),
      (stores.map Store.storeCode).Nodup →
      (∀ s ∈ stores, s.storeCode ∉ acc.results.map Prod.fst) →
      (stores.foldl (calculateBulkStep configs ct d) acc).results.length +
        (stores.foldl (calculateBulkStep configs ct d) acc).errors.length =
      acc.results.length + acc.errors.length + stores.length
  | [], acc, _, _ => rfl
  | s :: l, acc, hnodup, hkeys => by
      rw [List.foldl_cons]
      simp only [List.map_cons, List.nodup_cons] at hnodup
      have hsk : s.storeCode ∉ acc.results.map Prod.fst :=
        hkeys s (List.mem_cons_self s l)
      have hstep :
          (calculateBulkStep configs ct d acc s).results.length +
            (calculateBulkStep configs ct d acc s).errors.length =
          acc.results.length + acc.errors.length + 1 := by
        cases hcal : calculate configs s ct d with
        | ok r =>
            simp only [calculateBulkStep, hcal,
              jsMapSet_length_of_notMem _ _ _ hsk]
            omega
        | error msg =>
            simp only [calculateBulkStep, hcal, List.length_append,
              List.length_singleton]
            omega
      have hkeys' : ∀ t ∈ l, t.storeCode ∉
          (calculateBulkStep configs ct d acc s).results.map Prod.fst := by
        intro t ht
        cases hcal : calculate configs s ct d with
        | ok r =>
            simp only [calculateBulkStep, hcal, mem_keys_jsMapSet]
            push_neg
            refine ⟨?_, hkeys t (List.mem_cons_of_mem s ht)⟩
            intro hEq
            exact hnodup.1 (by rw [← hEq]; exact List.mem_map_of_mem Store.storeCode ht)
        | error msg =>
            simp only [calculateBulkStep, hcal]
            exact hkeys t (List.mem_cons_of_mem s ht)
      rw [calculateBulk_fold_length configs ct d l _ hnodup.2 hkeys']
      simp only [List.length_cons]
      omega

lemma calculateBulk_error_mem (configs : List PricingConfig)
    (ct : CoverageType) (d : Date) (s : Store) (e : String)
    (he : calculate configs s ct d = .error e) :
    ∀ (stores : List Store) (acc : BulkPricingResult), s ∈ stores →
      ({ storeCode := s.storeCode, coverageType := ct, error := e } :
        PricingError) ∈
        (stores.foldl (calculateBulkStep configs ct d) acc).errors
  | [], _, hs => absurd hs (List.not_mem_nil s)
  | t :: l, acc, hs => by
      rw [List.foldl_cons]
      rcases List.mem_cons.1 hs with heq | htail
      · subst heq
        apply calculateBulk_error_mem_preserved
        simp only [calculateBulkStep, he]
        exact List.mem_append_right _ (List.mem_singleton.2 rfl)
      · exact calculateBulk_error_mem configs ct d s e he l _ htail

lemma calculateBulk_lookup_ok (configs : List PricingConfig)
    (ct : CoverageType) (d : Date) (s : Store) (r : PricingResult)
    (hr : calculate configs s ct d = .ok r) :
    ∀ (stores : List Store) (acc : BulkPricingResult),
      (stores.map Store.storeCode).Nodup → s ∈ stores →
      ((stores.foldl (calculateBulkStep configs ct d) acc).results.lookup
        s.storeCode) = some r
  | [], _, _, hs => absurd hs (List.not_mem_nil s)
  | t :: l, acc, hnodup, hs => by
      rw [List.foldl_cons]
      simp only [List.map_cons, List.nodup_cons] at hnodup
      rcases List.mem_cons.1 hs with heq | htail
      · subst heq
        rw [calculateBulk_lookup_preserved configs ct d s.storeCode l _
          (fun u hu hEq =>
            hnodup.1 (by rw [← hEq]; exact List.mem_map_of_mem Store.storeCode hu))]
        simp only [calculateBulkStep, hr]
        exact lookup_jsMapSet_self _ _ _
      · exact calculateBulk_lookup_ok configs ct d s r hr l _ hnodup.2 htail

/-- C5 (amended): provided the store codes in the batch are pairwise
distinct, `calculateBulk` (a total function — it catches every per-store
failure) accounts for every input store exactly once:
`results.size + errors.size = stores.length`, every failing store
contributes a structured error carrying its store code, the coverage
type and the message, and every succeeding store's code maps to its
result. -/
theorem calculateBulk_accounts_every_store (configs : List PricingConfig)
    (stores : List Store) (ct : CoverageType) (d : Date)
    (hnodup : (stores.map Store.storeCode).Nodup) :
    (calculateBulk configs stores ct d).results.length +
      (calculateBulk configs stores ct d).errors.length = stores.length ∧
    (∀ s ∈ stores, ∀ e, calculate configs s ct d = .error e →
      ({ storeCode := s.storeCode, coverageType := ct, error := e } :
        PricingError) ∈ (calculateBulk configs stores ct d).errors) ∧
    (∀ s ∈ stores, ∀ r, calculate configs s ct d = .ok r →
      (calculateBulk configs stores ct d).results.lookup s.storeCode = some r) := by
  refine ⟨?_, ?_, ?_⟩
  · simpa using calculateBulk_fold_length configs ct d stores
      { results := [], errors := [] } hnodup (by simp)
  · intro s hs e he
    exact calculateBulk_error_mem configs ct d s e he stores _ hs
  · intro s hs r hr
    exact calculateBulk_lookup_ok configs ct d s r hr stores _ hnodup hs

/-- Witness for C5 (amended): a two-store batch with distinct codes
yields one map entry per store and no errors; the first store's code
looks up its own pricing result. -/
theorem calculateBulk_accounts_every_store_witness :
    ((calculateBulk DEFAULT_PRICING_CONFIGS [exActiveStore, exActiveStoreS2]
        .catnat 1735689600000).results.length +
      (calculateBulk DEFAULT_PRICING_CONFIGS [exActiveStore, exActiveStoreS2]
        .catnat 1735689600000).errors.length =
      ([exActiveStore, exActiveStoreS2] : List Store).length) ∧
    ((calculateBulk DEFAULT_PRICING_CONFIGS [exActiveStore, exActiveStoreS2]
        .catnat 1735689600000).results.lookup "S1").isSome := by
  have h := calculateBulk_accounts_every_store DEFAULT_PRICING_CONFIGS
    [exActiveStore, exActiveStoreS2] .catnat 1735689600000 (by decide)
  refine ⟨h.1, ?_⟩
  have hl := h.2.2 exActiveStore (by simp) _ rfl
  rw [show exActiveStore.storeCode = "S1" from rfl] at hl
  rw [hl]
  rfl

/-! ## Claims about the Policy Service -/

/-- Counterexample for C6: with the default rate table (configs active
from 2024-01-01) there is NO config active as of the requested
`effectiveFrom` 2023-06-01, yet `createPolicy` invoked at a current
time in 2026 succeeds and prices the policy (premium 500 from the
minimum floor) — the premium is computed with the config active at the
CURRENT time, not as of `effectiveFrom`. -/
theorem createPolicy_prices_at_now_cex :
    getActiveConfig DEFAULT_PRICING_CONFIGS .catnat 1685577600000 = none ∧
    ∃ p, createPolicy DEFAULT_PRICING_CONFIGS
        { store := exActiveStore, coverageType := .catnat,
          effectiveFrom := some 1685577600000, durationMonths := none }
        1791676800000 = .ok p ∧
      p.premium = 500 ∧ p.status = .active := by
  refine ⟨by decide, ⟨_, rfl, ?_, rfl⟩⟩
  show round2 (max (exActiveStore.squareMeters * (5/2)) 500) = 500
  rw [show exActiveStore.squareMeters = 100 from rfl]
  rw [show max ((100 : ℚ) * (5/2)) 500 = 500 by norm_num]
  unfold round2
  have h : ⌊(500 : ℚ) * 100 + 1/2⌋ = 50000 := by
    rw [Int.floor_eq_iff] <;> norm_num
  rw [h]
  norm_num

/-- C6 (amended): `createPolicy` computes premium and insured sum with
the pricing config active as of the CURRENT time — the source calls
`pricingEngine.calculate(store, coverageType)` without forwarding
`effectiveFrom`, so the engine's date defaults to now.  With an
explicit `effectiveFrom`, the policy's `effectiveTo` is
`effectiveFrom` plus `durationMonths` (default 12) calendar months (JS
`setMonth` semantics) and its status is `active`. -/
theorem createPolicy_uses_config_active_now (configs : List PricingConfig)
    (store : Store) (ct : CoverageType) (ef : Date) (dm : Option Int)
    (now : Date) (cfg : PricingConfig)
    (hcfg : getActiveConfig configs ct now = some cfg) :
    createPolicy configs
      { store := store, coverageType := ct, effectiveFrom := some ef,
        durationMonths := dm } now = .ok
      { policyId := "POL-" ++ store.storeCode ++ "-" ++ toString now,
        storeCode := store.storeCode, coverageType := ct,
        insuredSum := round2 (min (store.squareMeters * 1000)
          cfg.maximumInsuredSum),
        premium := round2 (max (store.squareMeters * cfg.ratePerSquareMeter)
          cfg.minimumPremium),
        effectiveFrom := ef, effectiveTo := addMonthsJS ef (dm.getD 12),
        status := .active, createdAt := now, updatedAt := now } := by
  simp [createPolicy, calculate, hcfg]

/-- Witness for C6 (amended): concrete creation at 2026-01-01 with
`effectiveFrom` 2025-01-01 and the default table. -/
theorem createPolicy_uses_config_active_now_witness :
    createPolicy DEFAULT_PRICING_CONFIGS
      { store := exActiveStore, coverageType := .catnat,
        effectiveFrom := some 1735689600000, durationMonths := none }
      1767225600000 = .ok
      { policyId := "POL-" ++ exActiveStore.storeCode ++ "-" ++ toString (1767225600000 : Int),
        storeCode := exActiveStore.storeCode, coverageType := .catnat,
        insuredSum := round2 (min (exActiveStore.squareMeters * 1000) 10000000),
        premium := round2 (max (exActiveStore.squareMeters * (5/2)) 500),
        effectiveFrom := 1735689600000,
        effectiveTo := addMonthsJS 1735689600000 ((none : Option Int).getD 12),
        status := .active, createdAt := 1767225600000,
        updatedAt := 1767225600000 } := by
  exact createPolicy_uses_config_active_now DEFAULT_PRICING_CONFIGS
    exActiveStore .catnat 1735689600000 none 1767225600000
    { coverageType := .catnat, ratePerSquareMeter := 5/2,
      minimumPremium := 500, maximumInsuredSum := 10000000,
      effectiveFrom := 1704067200000, effectiveTo := none }
    (by rfl)

/-! ## Claims about the File Processor -/

lemma validate_isValid_eq (rows : List ImportRow) :
    (validate rows).isValid = (validate rows).errors.isEmpty := rfl

/-- C1: `processFile` reports success only when there are no errors of
either kind: if `mapRows` produces a mapping error or `validate` a
validation error, the returned `validation.isValid` is `false` and
`rows` is empty (all-or-nothing); if neither does, `isValid` is `true`
and `rows` is exactly the mapped rows.  A parse failure likewise yields
`isValid = false` and no rows. -/
theorem processFile_success_iff_no_errors
    (filename content uploadedBy : String) (now : Date) :
    (∀ e, parseCSV content = .error e →
      (processFile filename content uploadedBy now).validation.isValid = false ∧
      (processFile filename content uploadedBy now).rows = []) ∧
    (∀ rawRows, parseCSV content = .ok rawRows →
      (((mapRows rawRows).2 ≠ [] ∨ (validate (mapRows rawRows).1).errors ≠ []) →
        (processFile filename content uploadedBy now).validation.isValid = false ∧
        (processFile filename content uploadedBy now).rows = []) ∧
      ((mapRows rawRows).2 = [] ∧ (validate (mapRows rawRows).1).errors = [] →
        (processFile filename content uploadedBy now).validation.isValid = true ∧
        (processFile filename content uploadedBy now).rows = (mapRows rawRows).1)) := by
  constructor
  · intro e he
    simp [processFile, he]
  · intro rawRows hok
    constructor
    · intro herr
      have hno : ((mapRows rawRows).2.isEmpty &&
          (validate (mapRows rawRows).1).isValid) = false := by
        rcases herr with hm | hv
        · have h1 : (mapRows rawRows).2.isEmpty = false := by
            simpa [List.isEmpty_iff] using hm
          simp [h1]
        · have h2 : (validate (mapRows rawRows).1).isValid = false := by
            rw [validate_isValid_eq]
            simpa [List.isEmpty_iff] using hv
          simp [h2]
      simp [processFile, hok, hno]
    · intro ⟨hm, hv⟩
      have hyes : ((mapRows rawRows).2.isEmpty &&
          (validate (mapRows rawRows).1).isValid) = true := by
        have h1 : (mapRows rawRows).2.isEmpty = true := by simp [hm]
        have h2 : (validate (mapRows rawRows).1).isValid = true := by
          rw [validate_isValid_eq]
          simp [hv]
        simp [h1, h2]
      simp [processFile, hok, hyes]

/-- Witness for C1: a CSV whose single data row has an empty store code
produces one mapping error and zero validation errors, and is not
reported successful — no rows are returned. -/
theorem processFile_success_iff_no_errors_witness :
    (processFile "f.csv" "codice;mq\n;100" "u" 0).validation.isValid = false ∧
    (processFile "f.csv" "codice;mq\n;100" "u" 0).rows = [] := by
  exact ((processFile_success_iff_no_errors "f.csv" "codice;mq\n;100" "u" 0).2
    _ rfl).1 (Or.inl (by decide))

/-! ### Infrastructure for the `parseCSV` claim: inverting the
splitting functions on encoded inputs. -/

/-- Join character lines with a separator character (specification-side
encoder: the inverse image of `splitChars`). -/
def joinChars (d : Char) : List (List Char) → List Char
  | [] => []
  | [l] => l
  | l :: ls => l ++ d :: joinChars d ls

lemma splitChars_ne_nil (sep : Char → Bool) (l : List Char) :
    splitChars sep l ≠ [] := by
  cases l with
  | nil => simp [splitChars]
  | cons c rest =>
      simp only [splitChars]
      cases h : splitChars sep rest with
      | nil => simp
      | cons g gs => by_cases hc : sep c <;> simp [hc]

lemma splitChars_no_sep (sep : Char → Bool) (l : List Char)
    (h : ∀ c ∈ l, sep c = false) : splitChars sep l = [l] := by
  induction l with
  | nil => rfl
  | cons c rest ih =>
      simp only [splitChars]
      rw [ih (fun c hc => h c (List.mem_cons_of_mem _ hc))]
      simp [h c (List.mem_cons_self c rest)]

lemma splitChars_append_sep (sep : Char → Bool) (d : Char) (hd : sep d = true)
    (x y : List Char) (hx : ∀ c ∈ x, sep c = false) :
    splitChars sep (x ++ d :: y) = x :: splitChars sep y := by
  induction x with
  | nil =>
      simp only [List.nil_append, splitChars]
      cases h : splitChars sep y with
      | nil => exact absurd h (splitChars_ne_nil sep y)
      | cons g gs => simp [hd]
  | cons a x ih =>
      simp only [List.cons_append, splitChars, List.append_eq]
      rw [ih (fun c hc => hx c (List.mem_cons_of_mem _ hc))]
      simp [hx a (List.mem_cons_self a x)]

lemma splitChars_joinChars (sep : Char → Bool) (d : Char) (hd : sep d = true) :
    ∀ (ls : List (List Char)), ls ≠ [] →
      (∀ l ∈ ls, ∀ c ∈ l, sep c = false) →
      splitChars sep (joinChars d ls) = ls
  | [], hne, _ => absurd rfl hne
  | [l], _, hls => by
      simp only [joinChars]
      exact splitChars_no_sep sep l (hls l (List.mem_singleton.2 rfl))
  | l :: l' :: ls, _, hls => by
      show splitChars sep (l ++ d :: joinChars d (l' :: ls)) = _
      rw [splitChars_append_sep sep d hd _ _
        (hls l (List.mem_cons_self l _))]
      rw [splitChars_joinChars sep d hd (l' :: ls) (by simp)
        (fun m hm => hls m (List.mem_cons_of_mem l hm))]

lemma dropWhile_eq_self_of_head {p : Char → Bool} (l : List Char)
    (h : ∀ c, l.head? = some c → p c = false) : l.dropWhile p = l := by
  cases l with
  | nil => rfl
  | cons c t => simp [List.dropWhile_cons, h c rfl]

lemma head?_reverse_eq_getLast? {α : Type} (l : List α) :
    l.reverse.head? = l.getLast? := by
  induction l using List.reverseRecOn with
  | nil => rfl
  | append_singleton l a ih => simp [List.getLast?_concat]

lemma mem_of_getLast?_eq {α : Type} {l : List α} {c : α}
    (h : l.getLast? = some c) : c ∈ l := by
  obtain ⟨hne, heq⟩ := List.mem_getLast?_eq_getLast (Option.mem_def.2 h)
  exact heq ▸ List.getLast_mem hne

lemma jsTrim_eq_self_of_ends (s : String)
    (h1 : ∀ c, s.toList.head? = some c → jsWhitespace c = false)
    (h2 : ∀ c, s.toList.getLast? = some c → jsWhitespace c = false) :
    jsTrim s = s := by
  unfold jsTrim
  rw [dropWhile_eq_self_of_head _ h1]
  rw [dropWhile_eq_self_of_head _
    (by rw [head?_reverse_eq_getLast?]; exact h2)]
  rw [List.reverse_reverse]
  rfl

lemma jsTrim_no_ws (s : String)
    (h : ∀ c ∈ s.toList, jsWhitespace c = false) : jsTrim s = s :=
  jsTrim_eq_self_of_ends s
    (fun c hc => h c (by cases l : s.toList <;> simp_all))
    (fun c hc => h c (mem_of_getLast?_eq hc))

lemma jsTrim_all_ws (s : String)
    (h : ∀ c ∈ s.toList, jsWhitespace c = true) : jsTrim s = "" := by
  unfold jsTrim
  rw [List.dropWhile_eq_nil_iff.2 h]
  rfl

lemma stripQuotes_eq_self (s : String)
    (h : ∀ c ∈ s.toList, c ≠ '"') : stripQuotes s = s := by
  unfold stripQuotes
  rw [List.filter_eq_self.2 (fun c hc => by simpa using h c hc)]
  rfl

/-- A CSV field that survives the parser unchanged: nonempty, and free
of whitespace, delimiters, quotes and newlines. -/
def cleanField (s : String) : Prop :=
  s.toList ≠ [] ∧ ∀ c ∈ s.toList,
    jsWhitespace c = false ∧ c ≠ ',' ∧ c ≠ ';' ∧ c ≠ '"' ∧ c ≠ '\n'

instance (s : String) : Decidable (cleanField s) := by
  unfold cleanField; infer_instance

/-- One encoded CSV line: a delimited row of fields, or a blank
(whitespace-only) line. -/
inductive LineSpec
  | row (delim : Char) (fields : List String)
  | blank (w : String)
deriving DecidableEq, Repr

/-- The characters of an encoded line. -/
def LineSpec.text : LineSpec → List Char
  | .row d fs => joinChars d (fs.map String.toList)
  | .blank w => w.toList

/-- The record a line contributes after parsing (`none` for a blank
line). -/
def LineSpec.toRecord (headers : List String) : LineSpec → Option RawRow
  | .row _ fs => some (headers.zip fs)
  | .blank _ => none

def okDelim (d : Char) : Prop := d = ',' ∨ d = ';'

instance (d : Char) : Decidable (okDelim d) := by
  unfold okDelim; infer_instance

/-- Well-formedness of an encoded line against a header count `n`. -/
def cleanLine (n : Nat) : LineSpec → Prop
  | .row d fs => okDelim d ∧ fs ≠ [] ∧ fs.length = n ∧ ∀ f ∈ fs, cleanField f
  | .blank w => ∀ c ∈ w.toList, jsWhitespace c = true ∧ c ≠ '\n'

instance (n : Nat) (l : LineSpec) : Decidable (cleanLine n l) := by
  cases l <;> (unfold cleanLine; infer_instance)

/-- Encode a CSV text from a header delimiter, header names and data
lines (specification-side construction for the `parseCSV` theorem). -/
def encodeCSV (dh : Char) (headers : List String) (dataLines : List LineSpec) :
    String :=
  ⟨joinChars '\n'
    (joinChars dh (headers.map String.toList) :: dataLines.map LineSpec.text)⟩

lemma getD_drop_head : ∀ (values vs : List String) (k : Nat) (v : String),
    values.drop k = v :: vs →
    values.getD k "" = v ∧ values.drop (k + 1) = vs
  | [], vs, k, v, h => by simp at h
  | a :: rest, vs, 0, v, h => by
      simp only [List.drop_zero] at h
      cases h
      exact ⟨rfl, by simp⟩
  | a :: rest, vs, k + 1, v, h => by
      simp only [List.drop_succ_cons] at h
      have := getD_drop_head rest vs k v h
      exact ⟨this.1, by simpa using this.2⟩

lemma jsMapSet_eq_append {α : Type} (m : List (String × α)) (k : String)
    (v : α) (h : k ∉ m.map Prod.fst) : jsMapSet m k v = m ++ [(k, v)] := by
  induction m with
  | nil => rfl
  | cons p rest ih =>
      obtain ⟨k', v'⟩ := p
      simp only [List.map_cons, List.mem_cons] at h
      push_neg at h
      simp only [jsMapSet, if_neg (Ne.symm h.1), List.cons_append]
      rw [ih h.2]

lemma foldl_jsMapSet_enumFrom (values : List String) :
    ∀ (hs : List String) (k : Nat) (acc : RawRow),
      hs.Nodup → (∀ h ∈ hs, h ∉ acc.map Prod.fst) →
      (List.enumFrom k hs).foldl
        (fun row p => jsMapSet row p.2 (values.getD p.1 "")) acc =
      acc ++ (List.enumFrom k hs).map (fun p => (p.2, values.getD p.1 ""))
  | [], k, acc, _, _ => by simp [List.enumFrom]
  | h :: hs, k, acc, hnd, hdisj => by
      simp only [List.enumFrom, List.foldl_cons, List.map_cons]
      simp only [List.nodup_cons] at hnd
      rw [show jsMapSet acc h (values.getD k "") = acc ++ [(h, values.getD k "")]
        from jsMapSet_eq_append acc h _ (hdisj h (List.mem_cons_self h hs))]
      rw [foldl_jsMapSet_enumFrom values hs (k + 1) _ hnd.2 ?_]
      · simp
      · intro g hg
        simp only [List.map_append, List.map_cons, List.map_nil,
          List.mem_append, List.mem_singleton]
        push_neg
        exact ⟨hdisj g (List.mem_cons_of_mem h hg),
          fun hEq => hnd.1 (hEq ▸ hg)⟩

lemma enumFrom_map_getD_zip :
    ∀ (hs vs values : List String) (k : Nat),
      values.drop k = vs → vs.length = hs.length →
      (List.enumFrom k hs).map (fun p => (p.2, values.getD p.1 "")) =
        hs.zip vs
  | [], vs, values, k, _, hlen => by
      cases vs with
      | nil => simp [List.enumFrom]
      | cons v vs => simp at hlen
  | h :: hs, vs, values, k, hdrop, hlen => by
      cases vs with
      | nil => simp at hlen
      | cons v vs =>
          obtain ⟨hget, hdrop'⟩ := getD_drop_head values vs k v hdrop
          simp only [List.enumFrom, List.map_cons, List.zip_cons_cons, hget]
          rw [enumFrom_map_getD_zip hs vs values (k + 1) hdrop'
            (by simpa using hlen)]

/-- `buildRow` on distinct headers with exactly one value per header is
the literal association of headers to values. -/
lemma buildRow_eq_zip (headers values : List String)
    (hnd : headers.Nodup) (hlen : values.length = headers.length) :
    buildRow headers values = headers.zip values := by
  unfold buildRow
  rw [show headers.enum = List.enumFrom 0 headers from rfl]
  rw [foldl_jsMapSet_enumFrom values headers 0 [] hnd (by simp)]
  rw [enumFrom_map_getD_zip headers values values 0 (by simp) (by omega)]
  simp

lemma mem_joinChars {c d : Char} :
    ∀ {ls : List (List Char)}, c ∈ joinChars d ls →
      c = d ∨ ∃ l ∈ ls, c ∈ l
  | [], h => by simp [joinChars] at h
  | [l], h => Or.inr ⟨l, List.mem_singleton.2 rfl, h⟩
  | l :: l' :: ls, h => by
      rcases List.mem_append.1 h with hl | hr
      · exact Or.inr ⟨l, List.mem_cons_self l _, hl⟩
      · rcases List.mem_cons.1 hr with rfl | hrest
        · exact Or.inl rfl
        · rcases mem_joinChars hrest with hd | ⟨m, hm, hcm⟩
          · exact Or.inl hd
          · exact Or.inr ⟨m, List.mem_cons_of_mem l hm, hcm⟩

lemma joinChars_cons_ne_nil {d : Char} {l : List Char}
    (hl : l ≠ []) (ls : List (List Char)) : joinChars d (l :: ls) ≠ [] := by
  cases ls with
  | nil => exact hl
  | cons l' ls =>
      show l ++ d :: joinChars d (l' :: ls) ≠ []
      simp

lemma head?_joinChars {d : Char} {l : List Char} (hl : l ≠ [])
    (ls : List (List Char)) : (joinChars d (l :: ls)).head? = l.head? := by
  cases ls with
  | nil => rfl
  | cons l' ls =>
      show (l ++ d :: joinChars d (l' :: ls)).head? = l.head?
      cases l with
      | nil => exact absurd rfl hl
      | cons a t => rfl

lemma getLast?_joinChars {d : Char} :
    ∀ (ls : List (List Char)) (l : List Char), ls.getLast? = some l →
      l ≠ [] → (joinChars d ls).getLast? = l.getLast?
  | [], l, h, _ => by simp at h
  | [m], l, h, hne => by
      simp only [List.getLast?_singleton, Option.some.injEq] at h
      subst h
      rfl
  | m :: m' :: ls, l, h, hne => by
      rw [List.getLast?_cons_cons] at h
      show (m ++ d :: joinChars d (m' :: ls)).getLast? = l.getLast?
      have hj : joinChars d (m' :: ls) ≠ [] := by
        cases ls with
        | nil =>
            simp only [List.getLast?_singleton, Option.some.injEq] at h
            subst h
            exact hne
        | cons x xs => show m' ++ d :: _ ≠ []; simp
      rw [List.getLast?_append_of_ne_nil m (by simp)]
      rw [show (d :: joinChars d (m' :: ls)) = [d] ++ joinChars d (m' :: ls)
        from rfl]
      rw [List.getLast?_append_of_ne_nil [d] hj]
      exact getLast?_joinChars (m' :: ls) l h hne

lemma parse_field_clean (f : String) (hf : cleanField f) :
    stripQuotes (jsTrim f) = f := by
  rw [jsTrim_no_ws f (fun c hc => (hf.2 c hc).1)]
  exact stripQuotes_eq_self f (fun c hc => (hf.2 c hc).2.2.2.1)

lemma splitDelims_joinChars (d : Char) (hd : okDelim d) (fs : List String)
    (hne : fs ≠ []) (hclean : ∀ f ∈ fs, cleanField f) :
    splitDelims ⟨joinChars d (fs.map String.toList)⟩ = fs := by
  unfold splitDelims
  rw [show (String.toList ⟨joinChars d (fs.map String.toList)⟩) =
    joinChars d (fs.map String.toList) from rfl]
  rw [splitChars_joinChars _ d
    (by rcases hd with rfl | rfl <;> rfl)
    (fs.map String.toList) (by simpa using hne)
    (by
      intro l hl c hc
      obtain ⟨f, hf, rfl⟩ := List.mem_map.1 hl
      have h := (hclean f hf).2 c hc
      simp [h.2.1, h.2.2.1])]
  rw [List.map_map]
  calc fs.map ((fun l => (⟨l⟩ : String)) ∘ String.toList)
      = fs.map id := List.map_congr_left (fun f _ => rfl)
    _ = fs := List.map_id fs

/-- Splitting and cleaning an encoded line of clean fields recovers the
fields. -/
lemma parseFields (d : Char) (hd : okDelim d) (fs : List String)
    (hne : fs ≠ []) (hclean : ∀ f ∈ fs, cleanField f) :
    (splitDelims ⟨joinChars d (fs.map String.toList)⟩).map
      (fun v => stripQuotes (jsTrim v)) = fs := by
  rw [splitDelims_joinChars d hd fs hne hclean]
  rw [List.map_congr_left (fun f hf => parse_field_clean f (hclean f hf))]
  exact List.map_id fs

/-- Evaluating `parseCSV` once the line structure is known. -/
lemma parseCSV_cons_cons (content : String) (l0 l1 : String)
    (rest : List String)
    (h : splitNewlines (jsTrim content) = l0 :: l1 :: rest) :
    parseCSV content = .ok ((l1 :: rest).filterMap fun rawLine =>
      let line := jsTrim rawLine
      if line = "" then none
      else
        some (buildRow
          ((splitDelims l0).map (fun hh => stripQuotes (jsTrim hh)))
          ((splitDelims line).map (fun v => stripQuotes (jsTrim v))))) := by
  unfold parseCSV
  rw [h]

/-- Counterexample for C7: the header uses `;`, yet the quoted field
`"x,y"` in the data row is split at the comma and its quotes are
stripped — the field value `x,y` is NOT preserved, and the comma splits
even though the header's delimiter is the semicolon (no per-file
auto-detection). -/
theorem parseCSV_quoted_field_split_cex :
    parseCSV "a;b\n\"x,y\";z" = .ok [[("a", "x"), ("b", "y")]] ∧
    ([("a", "x"), ("b", "y")] : RawRow).lookup "a" ≠ some "x,y" :=
  ⟨rfl, by decide⟩

/-- C7 (amended): `parseCSV` fails with the malformed-input error
whenever the trimmed content has fewer than two lines; on encoded input
it splits the header and every data line at EVERY comma and EVERY
semicolon — the two delimiters are interchangeable, also between
different lines of one file, so there is no per-header-line
auto-detection, and (see the counterexample) quotes do not protect
delimiters — skips whitespace-only data lines, and returns one record
per remaining data line associating the headers with that line's
fields. -/
theorem parseCSV_splits_on_both_delimiters :
    (∀ content : String, (splitNewlines (jsTrim content)).length < 2 →
      parseCSV content =
        .error "CSV must have at least a header row and one data row") ∧
    (∀ (dh : Char) (headers : List String) (dataLines : List LineSpec),
      okDelim dh → headers ≠ [] → headers.Nodup →
      (∀ h ∈ headers, cleanField h) →
      dataLines ≠ [] →
      (∀ l ∈ dataLines, cleanLine headers.length l) →
      (∀ w, dataLines.getLast? ≠ some (LineSpec.blank w)) →
      parseCSV (encodeCSV dh headers dataLines) =
        .ok (dataLines.filterMap (LineSpec.toRecord headers))) := by
  constructor
  · intro content hlen
    unfold parseCSV
    rcases hsp : splitNewlines (jsTrim content) with _ | ⟨l0, _ | ⟨l1, rest⟩⟩
    · rfl
    · rfl
    · rw [hsp] at hlen
      simp only [List.length_cons] at hlen
      omega
  · intro dh headers dataLines hdh hhne hnodup hclean hdne hlines hlast
    obtain ⟨h0, hs, rfl⟩ : ∃ a b, headers = a :: b := by
      cases headers with
      | nil => exact absurd rfl hhne
      | cons a b => exact ⟨a, b, rfl⟩
    obtain ⟨dl0, dls, rfl⟩ : ∃ a b, dataLines = a :: b := by
      cases dataLines with
      | nil => exact absurd rfl hdne
      | cons a b => exact ⟨a, b, rfl⟩
    have hh0ne : h0.toList ≠ [] := (hclean h0 (List.mem_cons_self h0 hs)).1
    have hHmap : (h0 :: hs).map String.toList =
        h0.toList :: hs.map String.toList := rfl
    have hHCne : joinChars dh ((h0 :: hs).map String.toList) ≠ [] := by
      rw [hHmap]
      exact joinChars_cons_ne_nil hh0ne _
    -- every encoded line is free of newline characters
    have hnl : ∀ l ∈ (joinChars dh ((h0 :: hs).map String.toList) ::
        (dl0 :: dls).map LineSpec.text), ∀ c ∈ l, (c = '\n' : Bool) = false := by
      intro l hl c hc
      rcases List.mem_cons.1 hl with rfl | hl'
      · rcases mem_joinChars hc with rfl | ⟨m, hm, hcm⟩
        · rcases hdh with rfl | rfl <;> rfl
        · obtain ⟨f, hf, rfl⟩ := List.mem_map.1 hm
          simp [((hclean f hf).2 c hcm).2.2.2.2]
      · obtain ⟨ls, hls, rfl⟩ := List.mem_map.1 hl'
        have hcl := hlines ls hls
        cases ls with
        | blank w =>
            simp only [LineSpec.text] at hc
            simp [(hcl c hc).2]
        | row d' fs' =>
            obtain ⟨hd', hfne, hflen, hfclean⟩ := hcl
            simp only [LineSpec.text] at hc
            rcases mem_joinChars hc with rfl | ⟨m, hm, hcm⟩
            · rcases hd' with rfl | rfl <;> rfl
            · obtain ⟨f, hf, rfl⟩ := List.mem_map.1 hm
              simp [((hfclean f hf).2 c hcm).2.2.2.2]
    -- the last encoded line is a row of clean fields
    have hglast : (dl0 :: dls).getLast? =
        some ((dl0 :: dls).getLast (by simp)) :=
      List.getLast?_eq_getLast_of_ne_nil (by simp)
    obtain ⟨d', fs', hcase⟩ : ∃ d' fs',
        (dl0 :: dls).getLast (by simp) = LineSpec.row d' fs' := by
      cases hc2 : (dl0 :: dls).getLast (by simp) with
      | blank w => exact absurd (by rw [hglast, hc2]) (hlast w)
      | row d' fs' => exact ⟨d', fs', rfl⟩
    have hlastmem : LineSpec.row d' fs' ∈ dl0 :: dls :=
      hcase ▸ List.getLast_mem (by simp)
    obtain ⟨hd', hfne, hflen, hfclean⟩ := hlines _ hlastmem
    have hlastF : fs'.getLast? = some (fs'.getLast hfne) :=
      List.getLast?_eq_getLast_of_ne_nil hfne
    have hlastFclean : cleanField (fs'.getLast hfne) :=
      hfclean _ (List.getLast_mem hfne)
    have hf0 : ∃ f0 fsr, fs' = f0 :: fsr := by
      cases fs' with
      | nil => exact absurd rfl hfne
      | cons a b => exact ⟨a, b, rfl⟩
    obtain ⟨f0, fsr, rfl⟩ := hf0
    have hrowne : LineSpec.text (LineSpec.row d' (f0 :: fsr)) ≠ [] := by
      show joinChars d' ((f0 :: fsr).map String.toList) ≠ []
      exact joinChars_cons_ne_nil
        (hfclean f0 (List.mem_cons_self f0 fsr)).1 _
    -- getLast? of the whole encoded text is the last char of the last field
    have h6 : (joinChars dh ((h0 :: hs).map String.toList) ::
        (dl0 :: dls).map LineSpec.text).getLast? =
        some (LineSpec.text (LineSpec.row d' (f0 :: fsr))) := by
      rw [show (joinChars dh ((h0 :: hs).map String.toList) ::
          (dl0 :: dls).map LineSpec.text) =
        [joinChars dh ((h0 :: hs).map String.toList)] ++
          (dl0 :: dls).map LineSpec.text from rfl]
      rw [List.getLast?_append_of_ne_nil _ (by simp)]
      rw [List.getLast?_map, hglast, hcase]
      rfl
    have h7 : (joinChars '\n' (joinChars dh ((h0 :: hs).map String.toList) ::
        (dl0 :: dls).map LineSpec.text)).getLast? =
        (LineSpec.text (LineSpec.row d' (f0 :: fsr))).getLast? :=
      getLast?_joinChars _ _ h6 hrowne
    have h8 : (LineSpec.text (LineSpec.row d' (f0 :: fsr))).getLast? =
        ((f0 :: fsr).getLast (by simp)).toList.getLast? := by
      show (joinChars d' ((f0 :: fsr).map String.toList)).getLast? = _
      apply getLast?_joinChars
      · rw [List.getLast?_map, hlastF]
        rfl
      · exact hlastFclean.1
    -- the whole encoded text needs no trimming
    have htrim : jsTrim (encodeCSV dh (h0 :: hs) (dl0 :: dls)) =
        encodeCSV dh (h0 :: hs) (dl0 :: dls) := by
      apply jsTrim_eq_self_of_ends
      · intro c hc
        rw [show (encodeCSV dh (h0 :: hs) (dl0 :: dls)).toList =
          joinChars '\n' (joinChars dh ((h0 :: hs).map String.toList) ::
            (dl0 :: dls).map LineSpec.text) from rfl] at hc
        rw [head?_joinChars hHCne] at hc
        rw [hHmap, head?_joinChars hh0ne] at hc
        exact ((hclean h0 (List.mem_cons_self h0 hs)).2 c
          (List.mem_of_mem_head? (Option.mem_def.2 hc))).1
      · intro c hc
        rw [show (encodeCSV dh (h0 :: hs) (dl0 :: dls)).toList =
          joinChars '\n' (joinChars dh ((h0 :: hs).map String.toList) ::
            (dl0 :: dls).map LineSpec.text) from rfl] at hc
        rw [h7, h8] at hc
        exact (hlastFclean.2 c (mem_of_getLast?_eq hc)).1
    -- the split into lines recovers the encoded lines
    have hsplit : splitNewlines (encodeCSV dh (h0 :: hs) (dl0 :: dls)) =
        (⟨joinChars dh ((h0 :: hs).map String.toList)⟩ : String) ::
          (⟨LineSpec.text dl0⟩ : String) ::
            dls.map (fun l => (⟨LineSpec.text l⟩ : String)) := by
      unfold splitNewlines
      rw [show (encodeCSV dh (h0 :: hs) (dl0 :: dls)).toList =
        joinChars '\n' (joinChars dh ((h0 :: hs).map String.toList) ::
          (dl0 :: dls).map LineSpec.text) from rfl]
      rw [splitChars_joinChars _ '\n' rfl _ (by simp) hnl]
      simp [List.map_map, Function.comp]
    rw [parseCSV_cons_cons _ _ _ _ (by rw [htrim, hsplit])]
    -- the parsed header names are the encoded ones
    have hheaders : (splitDelims
        (⟨joinChars dh ((h0 :: hs).map String.toList)⟩ : String)).map
          (fun hh => stripQuotes (jsTrim hh)) = h0 :: hs :=
      parseFields dh hdh (h0 :: hs) (by simp) hclean
    simp only [hheaders]
    congr 1
    rw [show ((⟨LineSpec.text dl0⟩ : String) ::
        dls.map (fun l => (⟨LineSpec.text l⟩ : String))) =
      (dl0 :: dls).map (fun l => (⟨LineSpec.text l⟩ : String)) from rfl]
    rw [List.filterMap_map]
    apply List.filterMap_congr
    intro l hl
    cases l with
    | blank w =>
        have hcl := hlines (LineSpec.blank w) hl
        show (let line := jsTrim (⟨(LineSpec.blank w).text⟩ : String); _) = _
        simp only [LineSpec.text, Function.comp]
        rw [show ((⟨w.toList⟩ : String)) = w from rfl]
        rw [jsTrim_all_ws w (fun c hc => (hcl c hc).1)]
        rfl
    | row dr fsr' =>
        obtain ⟨hdr, hfner, hflenr, hfcleanr⟩ := hlines _ hl
        have htr : jsTrim (⟨LineSpec.text (LineSpec.row dr fsr')⟩ : String) =
            (⟨LineSpec.text (LineSpec.row dr fsr')⟩ : String) := by
          apply jsTrim_no_ws
          intro c hc
          rw [show (⟨LineSpec.text (LineSpec.row dr fsr')⟩ : String).toList =
            LineSpec.text (LineSpec.row dr fsr') from rfl] at hc
          simp only [LineSpec.text] at hc
          rcases mem_joinChars hc with rfl | ⟨m, hm, hcm⟩
          · rcases hdr with rfl | rfl <;> rfl
          · obtain ⟨f, hf, rfl⟩ := List.mem_map.1 hm
            exact ((hfcleanr f hf).2 c hcm).1
        obtain ⟨g0, gsr, rfl⟩ : ∃ a b, fsr' = a :: b := by
          cases fsr' with
          | nil => exact absurd rfl hfner
          | cons a b => exact ⟨a, b, rfl⟩
        have hne' : (⟨LineSpec.text (LineSpec.row dr (g0 :: gsr))⟩ : String) ≠ "" := by
          intro hq
          have h0' : LineSpec.text (LineSpec.row dr (g0 :: gsr)) = [] :=
            congrArg String.toList hq
          exact joinChars_cons_ne_nil
            (hfcleanr g0 (List.mem_cons_self g0 gsr)).1 _ h0'
        show (let line := jsTrim (⟨LineSpec.text (LineSpec.row dr (g0 :: gsr))⟩ : String); _) = _
        simp only [Function.comp, htr]
        rw [if_neg hne']
        rw [show (⟨LineSpec.text (LineSpec.row dr (g0 :: gsr))⟩ : String) =
          (⟨joinChars dr ((g0 :: gsr).map String.toList)⟩ : String) from rfl]
        rw [parseFields dr hdr (g0 :: gsr) (by simp) hfcleanr]
        rw [buildRow_eq_zip (h0 :: hs) (g0 :: gsr) hnodup hflenr]
        rfl

/-- Witness for C7 (amended): a semicolon header line, one data row
using commas, one blank line (skipped), one data row using semicolons —
all parsed to the expected records. -/
theorem parseCSV_splits_on_both_delimiters_witness :
    parseCSV (encodeCSV ';' ["codice", "mq"]
      [.row ',' ["S1", "100"], .blank " ", .row ';' ["S2", "200"]]) =
      .ok [[("codice", "S1"), ("mq", "100")],
           [("codice", "S2"), ("mq", "200")]] := by
  have h := parseCSV_splits_on_both_delimiters.2 ';' ["codice", "mq"]
    [.row ',' ["S1", "100"], .blank " ", .row ';' ["S2", "200"]]
    (by decide) (by decide) (by decide) (by decide) (by decide)
    (by decide)
    (by
      intro w hw
      rw [show ([.row ',' ["S1", "100"], .blank " ",
          .row ';' ["S2", "200"]] : List LineSpec).getLast? =
        some (.row ';' ["S2", "200"]) from rfl] at hw
      injection hw with hw'
      exact LineSpec.noConfusion hw')
  exact h.trans (by rfl)

end OvsCatNat
